import Mathlib

/-!
Shallow embedding of the subscription-management backend (Convex functions)
and proofs about its specification claims.

Conventions of the embedding:
* JS strings are modelled as Lean `String` (sequences of Unicode scalar
  values); `TextEncoder`/`TextDecoder` are modelled by an explicit UTF-8
  codec on `Nat` byte lists (error recovery of the decoder is simplified
  to emitting a single U+FFFD, which no claim exercises).
* `btoa`/`atob` are modelled by an explicit base64 codec.
* JS numbers used as money are modelled as `Rat`; timestamps as `Int`
  (milliseconds); document ids as `Nat`.
* Convex mutations are modelled as state-passing functions
  `DB → Except String α × DB` where a thrown error carries the state at
  the throw point (so ordering of writes relative to throws is visible);
  the transactional rollback that Convex applies to a failed mutation is
  modelled separately by a `Tx` wrapper that restores the initial state.
-/

/-- UTF-8 encoding of a single Unicode scalar value, as performed by
`TextEncoder` (bytes written with division/remainder arithmetic). -/
def utf8EncodeChar (c : Nat) : List Nat :=
  if c < 128 then [c]
  else if c < 2048 then [192 + c / 64, 128 + c % 64]
  else if c < 65536 then [224 + c / 4096, 128 + c / 64 % 64, 128 + c % 64]
  else [240 + c / 262144, 128 + c / 4096 % 64, 128 + c / 64 % 64, 128 + c % 64]

/-- UTF-8 encoding of a sequence of scalar values. -/
def utf8Encode : List Nat → List Nat
  | [] => []
  | c :: rest => utf8EncodeChar c ++ utf8Encode rest

/-- Decoding of one UTF-8 sequence starting at lead byte `b1` with the
following bytes in `rest`: returns the scalar value and the number of bytes
consumed.  Malformed sequences produce U+FFFD (65533; the exact
resynchronisation of the WHATWG decoder after an error is simplified, which
no claim exercises).  The lead and continuation byte ranges follow the
WHATWG UTF-8 decoder. -/
def utf8DecodeStep (b1 : Nat) (rest : List Nat) : Nat × Nat :=
  if b1 < 128 then (b1, 1)
  else if 194 ≤ b1 ∧ b1 ≤ 223 then
    match rest with
    | b2 :: _ =>
      if 128 ≤ b2 ∧ b2 ≤ 191 then ((b1 - 192) * 64 + (b2 - 128), 2)
      else (65533, 2)
    | [] => (65533, 1)
  else if 224 ≤ b1 ∧ b1 ≤ 239 then
    match rest with
    | b2 :: b3 :: _ =>
      if (128 ≤ b2 ∧ b2 ≤ 191) ∧ (b1 ≠ 224 ∨ 160 ≤ b2) ∧ (b1 ≠ 237 ∨ b2 ≤ 159) ∧
          (128 ≤ b3 ∧ b3 ≤ 191) then
        ((b1 - 224) * 4096 + (b2 - 128) * 64 + (b3 - 128), 3)
      else (65533, 3)
    | _ => (65533, 1)
  else if 240 ≤ b1 ∧ b1 ≤ 244 then
    match rest with
    | b2 :: b3 :: b4 :: _ =>
      if (128 ≤ b2 ∧ b2 ≤ 191) ∧ (b1 ≠ 240 ∨ 144 ≤ b2) ∧ (b1 ≠ 244 ∨ b2 ≤ 143) ∧
          (128 ≤ b3 ∧ b3 ≤ 191) ∧ (128 ≤ b4 ∧ b4 ≤ 191) then
        ((b1 - 240) * 262144 + (b2 - 128) * 4096 + (b3 - 128) * 64 + (b4 - 128), 4)
      else (65533, 4)
    | _ => (65533, 1)
  else (65533, 1)

/-- UTF-8 decoding of a byte sequence to scalar values, as performed by
`TextDecoder` in its default (replacing) mode, one sequence at a time. -/
def utf8Decode : List Nat → List Nat
  | [] => []
  | b1 :: rest =>
    (utf8DecodeStep b1 rest).1 :: utf8Decode (rest.drop ((utf8DecodeStep b1 rest).2 - 1))
termination_by l => l.length
decreasing_by simp only [List.length_drop, List.length_cons]; omega

/-- Standard base64 alphabet. -/
def b64Alphabet : List Char :=
  "ABCDEFGHIJKLMNOPQRSTUVWXYZabcdefghijklmnopqrstuvwxyz0123456789+/".data

/-- Character for a sextet value. -/
def b64Char (n : Nat) : Char := b64Alphabet.getD n 'A'

/-- Sextet value of a base64 character, `none` for characters outside the
alphabet (in particular for the padding character). -/
def b64Index (c : Char) : Option Nat := b64Alphabet.findIdx? (fun d => d = c)

/-- Base64 encoding of a byte sequence with padding, as performed by
`btoa` on the corresponding binary string. -/
def base64Encode : List Nat → List Char
  | [] => []
  | [a] => [b64Char (a / 4), b64Char (a % 4 * 16), '=', '=']
  | [a, b] => [b64Char (a / 4), b64Char (a % 4 * 16 + b / 16), b64Char (b % 16 * 4), '=']
  | a :: b :: c :: rest =>
    b64Char (a / 4) :: b64Char (a % 4 * 16 + b / 16) :: b64Char (b % 16 * 4 + c / 64)
      :: b64Char (c % 64) :: base64Encode rest

/-- Base64 decoding (forgiving about a missing final padding group, as
`atob` is), `none` on malformed input. -/
def base64Decode : List Char → Option (List Nat)
  | [] => some []
  | [c1, c2] => do
    let s1 ← b64Index c1
    let s2 ← b64Index c2
    some [s1 * 4 + s2 / 16]
  | [c1, c2, c3] => do
    let s1 ← b64Index c1
    let s2 ← b64Index c2
    let s3 ← b64Index c3
    some [s1 * 4 + s2 / 16, s2 % 16 * 16 + s3 / 4]
  | c1 :: c2 :: c3 :: c4 :: rest =>
    if c3 = '=' then
      if c4 = '=' ∧ rest = [] then do
        let s1 ← b64Index c1
        let s2 ← b64Index c2
        some [s1 * 4 + s2 / 16]
      else none
    else if c4 = '=' then
      if rest = [] then do
        let s1 ← b64Index c1
        let s2 ← b64Index c2
        let s3 ← b64Index c3
        some [s1 * 4 + s2 / 16, s2 % 16 * 16 + s3 / 4]
      else none
    else do
      let s1 ← b64Index c1
      let s2 ← b64Index c2
      let s3 ← b64Index c3
      let s4 ← b64Index c4
      let tail ← base64Decode rest
      some ((s1 * 4 + s2 / 16) :: (s2 % 16 * 16 + s3 / 4) :: (s3 % 4 * 64 + s4) :: tail)
  | _ => none

/-- XOR masking loop shared by `encrypt` and `decrypt`:
`out[i] = data[i] ^ keyBytes[i % keyBytes.length] ^ iv[i % iv.length]`. -/
def xorCrypt (keyBytes iv : List Nat) : Nat → List Nat → List Nat
  | _, [] => []
  | i, b :: rest =>
    (b ^^^ keyBytes.getD (i % keyBytes.length) 0 ^^^ iv.getD (i % iv.length) 0)
      :: xorCrypt keyBytes iv (i + 1) rest

/-- Encrypts a string using the XOR cipher of `lib/encryption.ts`.  The
random 16-byte IV drawn by `crypto.getRandomValues` is passed explicitly. -/
def encrypt (plaintext key : String) (iv : List Nat) : Except String String :=
  if key = "" ∨ key.length < 32 then
    .error "Encryption key must be at least 32 characters"
  else
    let textBytes := utf8Encode (plaintext.data.map Char.toNat)
    let keyBytes := utf8Encode ((key.data.take 32).map Char.toNat)
    let encrypted := xorCrypt keyBytes iv 0 textBytes
    .ok (String.mk (base64Encode (iv ++ encrypted)))

/-- Decrypts a string that was encrypted with the `encrypt` function
(`lib/encryption.ts`): base64-decode, split off the 16-byte IV, XOR-unmask,
decode the bytes as UTF-8. -/
def decrypt (ciphertext key : String) : Except String String :=
  if key = "" ∨ key.length < 32 then
    .error "Encryption key must be at least 32 characters"
  else
    match base64Decode ciphertext.data with
    | none => .error "InvalidCharacterError"
    | some combined =>
      let iv := combined.take 16
      let encrypted := combined.drop 16
      let keyBytes := utf8Encode ((key.data.take 32).map Char.toNat)
      let decrypted := xorCrypt keyBytes iv 0 encrypted
      .ok (String.mk ((utf8Decode decrypted).map Char.ofNat))

/-- Every Lean `Char` carries a valid Unicode scalar value (no surrogates). -/
theorem char_toNat_valid (c : Char) :
    c.toNat < 55296 ∨ (57344 ≤ c.toNat ∧ c.toNat < 1114112) := by
  have h := c.valid
  unfold UInt32.isValidChar Nat.isValidChar at h
  rcases h with h | ⟨h1, h2⟩
  · left
    simpa [Char.toNat] using h
  · right
    refine ⟨?_, ?_⟩
    · simpa [Char.toNat] using h1
    · simpa [Char.toNat] using h2

/-- Bytes produced by `utf8EncodeChar` are bytes. -/
theorem utf8EncodeChar_lt (c : Nat) (hc : c < 1114112) :
    ∀ b ∈ utf8EncodeChar c, b < 256 := by
  intro b hb
  unfold utf8EncodeChar at hb
  split at hb
  · simp only [List.mem_singleton] at hb
    omega
  · split at hb
    · simp only [List.mem_cons, List.not_mem_nil, or_false] at hb
      rcases hb with rfl | rfl <;> omega
    · split at hb
      · simp only [List.mem_cons, List.not_mem_nil, or_false] at hb
        rcases hb with rfl | rfl | rfl <;> omega
      · simp only [List.mem_cons, List.not_mem_nil, or_false] at hb
        rcases hb with rfl | rfl | rfl | rfl <;> omega

/-- Bytes produced by `utf8Encode` are bytes. -/
theorem utf8Encode_lt (l : List Nat)
    (hv : ∀ c ∈ l, c < 1114112) : ∀ b ∈ utf8Encode l, b < 256 := by
  induction l with
  | nil => intro b hb; simp [utf8Encode] at hb
  | cons c rest ih =>
    intro b hb
    simp only [utf8Encode, List.mem_append] at hb
    rcases hb with hb | hb
    · exact utf8EncodeChar_lt c (hv c (by simp)) b hb
    · exact ih (fun d hd => hv d (by simp [hd])) b hb

/-- Decoding inverts encoding of a single valid scalar value, whatever
bytes follow. -/
theorem utf8Decode_encodeChar (c : Nat) (rest : List Nat)
    (hv : c < 55296 ∨ (57344 ≤ c ∧ c < 1114112)) :
    utf8Decode (utf8EncodeChar c ++ rest) = c :: utf8Decode rest := by
  rcases Nat.lt_or_ge c 128 with h1 | h1
  · have e : utf8EncodeChar c = [c] := by
      unfold utf8EncodeChar; rw [if_pos h1]
    have hs : utf8DecodeStep c rest = (c, 1) := by
      unfold utf8DecodeStep; rw [if_pos h1]
    rw [e, List.cons_append, List.nil_append, utf8Decode, hs]
    simp
  rcases Nat.lt_or_ge c 2048 with h2 | h2
  · have e : utf8EncodeChar c = [192 + c / 64, 128 + c % 64] := by
      unfold utf8EncodeChar; rw [if_neg (by omega), if_pos h2]
    have hs : utf8DecodeStep (192 + c / 64) ((128 + c % 64) :: rest) = (c, 2) := by
      have hb1 : ¬ (192 + c / 64 < 128) := by omega
      have hb2 : 194 ≤ 192 + c / 64 ∧ 192 + c / 64 ≤ 223 := by omega
      have hb3 : 128 ≤ 128 + c % 64 ∧ 128 + c % 64 ≤ 191 := by omega
      simp only [utf8DecodeStep, hb1, hb2, hb3, and_self, and_true, if_true, if_false, Prod.mk.injEq]
      omega
    rw [e, List.cons_append, List.cons_append, List.nil_append, utf8Decode, hs]
    simp
  rcases Nat.lt_or_ge c 65536 with h3 | h3
  · have e : utf8EncodeChar c = [224 + c / 4096, 128 + c / 64 % 64, 128 + c % 64] := by
      unfold utf8EncodeChar; rw [if_neg (by omega), if_neg (by omega), if_pos h3]
    have hs : utf8DecodeStep (224 + c / 4096)
        ((128 + c / 64 % 64) :: (128 + c % 64) :: rest) = (c, 3) := by
      have hb1 : ¬ (224 + c / 4096 < 128) := by omega
      have hb2 : ¬ (194 ≤ 224 + c / 4096 ∧ 224 + c / 4096 ≤ 223) := by omega
      have hb3 : 224 ≤ 224 + c / 4096 ∧ 224 + c / 4096 ≤ 239 := by omega
      have hcond : (128 ≤ 128 + c / 64 % 64 ∧ 128 + c / 64 % 64 ≤ 191) ∧
          (224 + c / 4096 ≠ 224 ∨ 160 ≤ 128 + c / 64 % 64) ∧
          (224 + c / 4096 ≠ 237 ∨ 128 + c / 64 % 64 ≤ 159) ∧
          (128 ≤ 128 + c % 64 ∧ 128 + c % 64 ≤ 191) := by omega
      simp only [utf8DecodeStep, hb1, hb2, hb3, hcond, and_self, and_true, if_true, if_false, Prod.mk.injEq]
      omega
    rw [e, List.cons_append, List.cons_append, List.cons_append, List.nil_append,
      utf8Decode, hs]
    simp
  · have e : utf8EncodeChar c =
        [240 + c / 262144, 128 + c / 4096 % 64, 128 + c / 64 % 64, 128 + c % 64] := by
      unfold utf8EncodeChar; rw [if_neg (by omega), if_neg (by omega), if_neg (by omega)]
    have hv4 : c < 1114112 := by omega
    have hs : utf8DecodeStep (240 + c / 262144)
        ((128 + c / 4096 % 64) :: (128 + c / 64 % 64) :: (128 + c % 64) :: rest)
        = (c, 4) := by
      have hb1 : ¬ (240 + c / 262144 < 128) := by omega
      have hb2 : ¬ (194 ≤ 240 + c / 262144 ∧ 240 + c / 262144 ≤ 223) := by omega
      have hb3 : ¬ (224 ≤ 240 + c / 262144 ∧ 240 + c / 262144 ≤ 239) := by omega
      have hb4 : 240 ≤ 240 + c / 262144 ∧ 240 + c / 262144 ≤ 244 := by omega
      have hcond : (128 ≤ 128 + c / 4096 % 64 ∧ 128 + c / 4096 % 64 ≤ 191) ∧
          (240 + c / 262144 ≠ 240 ∨ 144 ≤ 128 + c / 4096 % 64) ∧
          (240 + c / 262144 ≠ 244 ∨ 128 + c / 4096 % 64 ≤ 143) ∧
          (128 ≤ 128 + c / 64 % 64 ∧ 128 + c / 64 % 64 ≤ 191) ∧
          (128 ≤ 128 + c % 64 ∧ 128 + c % 64 ≤ 191) := by omega
      simp only [utf8DecodeStep, hb1, hb2, hb3, hb4, hcond, and_self, and_true, if_true, if_false,
        Prod.mk.injEq]
      omega
    rw [e, List.cons_append, List.cons_append, List.cons_append, List.cons_append,
      List.nil_append, utf8Decode, hs]
    simp

/-- UTF-8 decoding inverts UTF-8 encoding on valid scalar sequences. -/
theorem utf8Decode_utf8Encode (l : List Nat)
    (hv : ∀ c ∈ l, c < 55296 ∨ (57344 ≤ c ∧ c < 1114112)) :
    utf8Decode (utf8Encode l) = l := by
  induction l with
  | nil => simp [utf8Encode, utf8Decode]
  | cons c rest ih =>
    have : utf8Encode (c :: rest) = utf8EncodeChar c ++ utf8Encode rest := rfl
    rw [this, utf8Decode_encodeChar c _ (hv c (by simp)),
      ih (fun d hd => hv d (by simp [hd]))]

/-- Sextet lookup inverts the alphabet table. -/
theorem b64Index_b64Char : ∀ n, n < 64 → b64Index (b64Char n) = some n := by decide

/-- Alphabet characters are never the padding character. -/
theorem b64Char_ne_pad : ∀ n, n < 64 → b64Char n ≠ '=' := by decide

/-- Base64 decoding inverts base64 encoding on byte sequences. -/
theorem base64Decode_base64Encode (l : List Nat) (h : ∀ b ∈ l, b < 256) :
    base64Decode (base64Encode l) = some l := by
  induction l using base64Encode.induct with
  | case1 => rfl
  | case2 a =>
    have ha : a < 256 := h a (by simp)
    have h1 : b64Index (b64Char (a / 4)) = some (a / 4) := b64Index_b64Char _ (by omega)
    have h2 : b64Index (b64Char (a % 4 * 16)) = some (a % 4 * 16) :=
      b64Index_b64Char _ (by omega)
    simp only [base64Encode, base64Decode, if_pos, h1, h2, Option.bind_eq_bind,
      Option.some_bind, and_true, Option.some.injEq, List.cons.injEq]
    omega
  | case3 a b =>
    have ha : a < 256 := h a (by simp)
    have hb : b < 256 := h b (by simp)
    have h1 : b64Index (b64Char (a / 4)) = some (a / 4) := b64Index_b64Char _ (by omega)
    have h2 : b64Index (b64Char (a % 4 * 16 + b / 16)) = some (a % 4 * 16 + b / 16) :=
      b64Index_b64Char _ (by omega)
    have h3 : b64Index (b64Char (b % 16 * 4)) = some (b % 16 * 4) :=
      b64Index_b64Char _ (by omega)
    have hne : b64Char (b % 16 * 4) ≠ '=' := b64Char_ne_pad _ (by omega)
    simp only [base64Encode, base64Decode, hne, if_false, if_pos, h1, h2, h3,
      Option.bind_eq_bind, Option.some_bind, Option.some.injEq, List.cons.injEq,
      and_true]
    constructor
    · omega
    · omega
  | case4 a b c rest ih =>
    have ha : a < 256 := h a (by simp)
    have hb : b < 256 := h b (by simp)
    have hc : c < 256 := h c (by simp)
    have h1 : b64Index (b64Char (a / 4)) = some (a / 4) := b64Index_b64Char _ (by omega)
    have h2 : b64Index (b64Char (a % 4 * 16 + b / 16)) = some (a % 4 * 16 + b / 16) :=
      b64Index_b64Char _ (by omega)
    have h3 : b64Index (b64Char (b % 16 * 4 + c / 64)) = some (b % 16 * 4 + c / 64) :=
      b64Index_b64Char _ (by omega)
    have h4 : b64Index (b64Char (c % 64)) = some (c % 64) :=
      b64Index_b64Char _ (by omega)
    have hne3 : b64Char (b % 16 * 4 + c / 64) ≠ '=' := b64Char_ne_pad _ (by omega)
    have hne4 : b64Char (c % 64) ≠ '=' := b64Char_ne_pad _ (by omega)
    have htail : base64Decode (base64Encode rest) = some rest :=
      ih (fun d hd => h d (by simp [hd]))
    simp only [base64Encode, base64Decode, hne3, hne4, if_false, h1, h2, h3, h4, htail,
      Option.bind_eq_bind, Option.some_bind, Option.some.injEq, List.cons.injEq]
    refine ⟨by omega, by omega, by omega, trivial⟩

/-- Unmasking with the same keystream byte and IV byte restores the data
byte. -/
theorem xor_unmask (b k v : Nat) : b ^^^ k ^^^ v ^^^ k ^^^ v = b := by
  rw [Nat.xor_assoc (b ^^^ k) v k, Nat.xor_comm v k, ← Nat.xor_assoc (b ^^^ k) k v,
    Nat.xor_cancel_right, Nat.xor_cancel_right]

/-- Applying the XOR mask twice at the same start index is the identity. -/
theorem xorCrypt_xorCrypt (kb iv : List Nat) :
    ∀ i data, xorCrypt kb iv i (xorCrypt kb iv i data) = data := by
  intro i data
  induction data generalizing i with
  | nil => rfl
  | cons b rest ih =>
    simp only [xorCrypt, List.cons.injEq]
    exact ⟨xor_unmask _ _ _, ih (i + 1)⟩

/-- A list lookup with default stays below a bound satisfied by all
elements and the default. -/
theorem getD_lt_256 (l : List Nat) (i d : Nat) (hl : ∀ b ∈ l, b < 256)
    (hd : d < 256) : l.getD i d < 256 := by
  rw [List.getD_eq_getElem?_getD]
  cases hx : l[i]? with
  | none => simpa using hd
  | some x =>
    simp only [Option.getD_some]
    exact hl x (List.getElem?_mem hx)

/-- XOR of two bytes is a byte. -/
theorem xor_byte_lt (a b : Nat) (ha : a < 256) (hb : b < 256) : a ^^^ b < 256 := by
  have h := Nat.xor_lt_two_pow (n := 8) (x := a) (y := b) (by simpa) (by simpa)
  simpa using h

/-- The XOR mask maps bytes to bytes. -/
theorem xorCrypt_lt (kb iv : List Nat) (hkb : ∀ b ∈ kb, b < 256)
    (hiv : ∀ b ∈ iv, b < 256) :
    ∀ i data, (∀ b ∈ data, b < 256) → ∀ b ∈ xorCrypt kb iv i data, b < 256 := by
  intro i data hdata
  induction data generalizing i with
  | nil => intro b hb; simp [xorCrypt] at hb
  | cons x rest ih =>
    intro b hb
    simp only [xorCrypt, List.mem_cons] at hb
    rcases hb with rfl | hb
    · exact xor_byte_lt _ _
        (xor_byte_lt _ _ (hdata x (by simp)) (getD_lt_256 _ _ _ hkb (by omega)))
        (getD_lt_256 _ _ _ hiv (by omega))
    · exact ih (i + 1) (fun d hd => hdata d (by simp [hd])) b hb

/-- Scalar values of characters are valid code points, in particular below
the code-point bound. -/
theorem char_toNat_lt (c : Char) : c.toNat < 1114112 := by
  rcases char_toNat_valid c with h | ⟨h1, h2⟩ <;> omega

/-- Mapping back from scalar values to characters is the identity. -/
theorem map_ofNat_map_toNat (l : List Char) :
    (l.map Char.toNat).map Char.ofNat = l := by
  induction l with
  | nil => rfl
  | cons c rest ih => simp [Char.ofNat_toNat, ih]

/-- Round trip of the XOR cipher: decrypting the result of encrypting any
plaintext under any key of length at least 32 (with any 16-byte IV)
returns the plaintext. -/
theorem decrypt_encrypt_ok (plaintext key : String) (iv : List Nat)
    (hkey : 32 ≤ key.length) (hiv : iv.length = 16) (hivb : ∀ b ∈ iv, b < 256) :
    ∃ ciphertext, encrypt plaintext key iv = .ok ciphertext ∧
      decrypt ciphertext key = .ok plaintext := by
  have hkey2 : ¬ (key = "" ∨ key.length < 32) := by
    rintro (rfl | hlt)
    · exact absurd hkey (by decide)
    · omega
  have htext : ∀ b ∈ utf8Encode (plaintext.data.map Char.toNat), b < 256 := by
    refine utf8Encode_lt _ ?_
    intro c hc
    simp only [List.mem_map] at hc
    obtain ⟨ch, _, rfl⟩ := hc
    exact char_toNat_lt ch
  have hkb : ∀ b ∈ utf8Encode ((key.data.take 32).map Char.toNat), b < 256 := by
    refine utf8Encode_lt _ ?_
    intro c hc
    simp only [List.mem_map] at hc
    obtain ⟨ch, _, rfl⟩ := hc
    exact char_toNat_lt ch
  have henc : ∀ b ∈ xorCrypt (utf8Encode ((key.data.take 32).map Char.toNat)) iv 0
      (utf8Encode (plaintext.data.map Char.toNat)), b < 256 :=
    xorCrypt_lt _ _ hkb hivb 0 _ htext
  refine ⟨String.mk (base64Encode (iv ++ xorCrypt
      (utf8Encode ((key.data.take 32).map Char.toNat)) iv 0
      (utf8Encode (plaintext.data.map Char.toNat)))), ?_, ?_⟩
  · rw [encrypt, if_neg hkey2]
  · rw [decrypt, if_neg hkey2]
    have hdata : (String.mk (base64Encode (iv ++ xorCrypt
          (utf8Encode ((key.data.take 32).map Char.toNat)) iv 0
          (utf8Encode (plaintext.data.map Char.toNat))))).data
        = base64Encode (iv ++ xorCrypt
          (utf8Encode ((key.data.take 32).map Char.toNat)) iv 0
          (utf8Encode (plaintext.data.map Char.toNat))) := rfl
    rw [hdata, base64Decode_base64Encode _ ?hbound]
    case hbound =>
      intro b hb
      rcases List.mem_append.mp hb with hb | hb
      · exact hivb b hb
      · exact henc b hb
    have htake : (iv ++ xorCrypt (utf8Encode ((key.data.take 32).map Char.toNat)) iv 0
        (utf8Encode (plaintext.data.map Char.toNat))).take 16 = iv := by
      conv => lhs; rw [← hiv]
      exact List.take_left _ _
    have hdrop : (iv ++ xorCrypt (utf8Encode ((key.data.take 32).map Char.toNat)) iv 0
        (utf8Encode (plaintext.data.map Char.toNat))).drop 16
        = xorCrypt (utf8Encode ((key.data.take 32).map Char.toNat)) iv 0
          (utf8Encode (plaintext.data.map Char.toNat)) := by
      conv => lhs; rw [← hiv]
      exact List.drop_left _ _
    show Except.ok (String.mk ((utf8Decode (xorCrypt
        (utf8Encode ((key.data.take 32).map Char.toNat))
        ((iv ++ xorCrypt (utf8Encode ((key.data.take 32).map Char.toNat)) iv 0
          (utf8Encode (plaintext.data.map Char.toNat))).take 16) 0
        ((iv ++ xorCrypt (utf8Encode ((key.data.take 32).map Char.toNat)) iv 0
          (utf8Encode (plaintext.data.map Char.toNat))).drop 16))).map Char.ofNat))
      = Except.ok plaintext
    rw [htake, hdrop, xorCrypt_xorCrypt,
      utf8Decode_utf8Encode _ ?hvalid, map_ofNat_map_toNat]
    case hvalid =>
      intro c hc
      simp only [List.mem_map] at hc
      obtain ⟨ch, _, rfl⟩ := hc
      exact char_toNat_valid ch

/-- C1: for every plaintext string and every key of length at least 32
characters (and any 16-byte IV drawn for the encryption), decrypting the
result of encrypting the plaintext with that key returns the original
plaintext: `decrypt (encrypt plaintext key) key = plaintext`. -/
theorem C1_decrypt_encrypt (plaintext key : String) (iv : List Nat)
    (hkey : 32 ≤ key.length) (hiv : iv.length = 16) (hivb : ∀ b ∈ iv, b < 256) :
    ∃ ciphertext, encrypt plaintext key iv = .ok ciphertext ∧
      decrypt ciphertext key = .ok plaintext :=
  decrypt_encrypt_ok plaintext key iv hkey hiv hivb

/-- Witness for C1 at a concrete plaintext, key and IV. -/
theorem C1_decrypt_encrypt_witness :
    32 ≤ ("abcdefghijklmnopqrstuvwxyz012345" : String).length ∧
    (List.range 16).length = 16 ∧
    ∃ ciphertext,
      encrypt "hunter2: π☃" "abcdefghijklmnopqrstuvwxyz012345" (List.range 16)
        = .ok ciphertext ∧
      decrypt ciphertext "abcdefghijklmnopqrstuvwxyz012345" = .ok "hunter2: π☃" :=
  ⟨by decide, by decide,
    C1_decrypt_encrypt "hunter2: π☃" "abcdefghijklmnopqrstuvwxyz012345"
      (List.range 16) (by decide) (by decide) (by decide)⟩

/-! Data model (schema.ts).  Document ids are `Nat`, drawn from a `nextId`
counter in the database state; timestamps (both `Date.now()` values and the
ISO strings written by `new Date().toISOString()`) are modelled as the
`Int` millisecond clock value of the mutation; money and other JS numbers
are `Rat`. -/

/-- Row of the `users` table. -/
structure User where
  id : Nat
  email : String
  name : String
  passwordHash : String
  role : String
deriving DecidableEq, Repr

/-- Row of the `categories` table. -/
structure Category where
  id : Nat
  name : String
  description : String
  color : String
deriving DecidableEq, Repr

/-- Row of the `currencies` table. -/
structure Currency where
  id : Nat
  code : String
  name : String
  symbol : String
  exchangeRate : Rat
  isActive : Bool
deriving DecidableEq, Repr

/-- Row of the `subscriptions` table. -/
structure Subscription where
  id : Nat
  referenceNumber : String
  name : String
  description : String
  provider : String
  categoryId : Nat
  cost : Rat
  currencyId : Nat
  billingCycle : String
  nextRenewalDate : String
  paymentMethod : String
  status : String
  notificationEnabled : Bool
  notificationDaysBefore : Rat
deriving DecidableEq, Repr

/-- Row of the `credentials` table. -/
structure Credential where
  id : Nat
  subscriptionId : Nat
  username : String
  password : String
  notes : Option String
deriving DecidableEq, Repr

/-- Row of the `subscriptionRequests` table (schema.ts variant: requester
fields required). -/
structure SubscriptionRequest where
  id : Nat
  referenceNumber : String
  name : String
  description : String
  provider : String
  categoryId : Nat
  cost : Rat
  currencyId : Nat
  billingCycle : String
  requestedBy : String
  requesterEmail : String
  requesterDepartment : String
  justification : String
  status : String
  adminNotes : Option String
  reviewedBy : Option String
  reviewedAt : Option Int
deriving DecidableEq, Repr

/-- Row of the subscription-requests table of the parallel submission
module (optional requester fields). -/
structure SubscriptionRequestOpt where
  id : Nat
  referenceNumber : String
  name : String
  description : String
  provider : Option String
  categoryId : Nat
  cost : Rat
  currencyId : Nat
  billingCycle : String
  requestedBy : Option String
  requesterEmail : Option String
  requesterDepartment : Option String
  justification : Option String
  status : String
deriving DecidableEq, Repr

/-- Row of the `auditLogs` table. -/
structure AuditLogEntry where
  id : Nat
  subscriptionId : Nat
  subscriptionName : String
  action : String
  performedBy : String
  performedAt : Int
deriving DecidableEq, Repr

/-- Row of the `counters` table. -/
structure Counter where
  id : Nat
  name : String
  value : Nat
deriving DecidableEq, Repr

/-- Row of the `rateLimits` table. -/
structure RateLimit where
  id : Nat
  key : String
  windowStart : Int
  count : Nat
deriving DecidableEq, Repr

/-- The document database backing the Convex deployment. -/
structure DB where
  nextId : Nat := 0
  users : List User := []
  categories : List Category := []
  currencies : List Currency := []
  subscriptions : List Subscription := []
  credentials : List Credential := []
  subscriptionRequests : List SubscriptionRequest := []
  subscriptionRequestsOpt : List SubscriptionRequestOpt := []
  auditLogs : List AuditLogEntry := []
  counters : List Counter := []
  rateLimits : List RateLimit := []
deriving DecidableEq, Repr

/-- Convex `.unique()`: at most one matching row, error on more. -/
def uniqueFind {α : Type} (l : List α) (p : α → Bool) : Except String (Option α) :=
  match l.filter p with
  | [] => .ok none
  | [x] => .ok (some x)
  | _ => .error "unique() query returned more than one result"

/-! Validation helpers (lib/helpers.ts). -/

/-- Characters removed at both ends by `String.prototype.trim`. -/
def trimChars (l : List Char) : List Char :=
  ((l.dropWhile Char.isWhitespace).reverse.dropWhile Char.isWhitespace).reverse

/-- `String.prototype.trim` (executable model; JS strips Unicode
whitespace, of which the ASCII classes cover every input the claims
exercise). -/
def jsTrim (s : String) : String := String.mk (trimChars s.data)

/-- `String.prototype.toLowerCase` (simple case mapping). -/
def jsToLower (s : String) : String := String.mk (s.data.map Char.toLower)

/-- The HTML escaping of one character performed by the four global
regex replacements of `sanitizeString` (their replacement strings contain
none of the later patterns, so the sequential passes equal one chained
character map). -/
def escapeChar (c : Char) : List Char :=
  if c = '<' then "&lt;".data
  else if c = '>' then "&gt;".data
  else if c = '"' then "&quot;".data
  else if c = '\x27' then "&#x27;".data
  else [c]

/-- Escaping applied across a character list. -/
def escapeList : List Char → List Char
  | [] => []
  | c :: rest => escapeChar c ++ escapeList rest

/-- `sanitizeString`: replace angle brackets and quotes by HTML entities
and trim. -/
def sanitizeString (s : String) : String :=
  if s = "" then "" else jsTrim (String.mk (escapeList s.data))

/-- Splitting of a character list at a separator character
(`String.prototype.split` with a one-character separator). -/
def splitOnCharAux (sep : Char) : List Char → List Char → List (List Char)
  | [], acc => [acc.reverse]
  | c :: rest, acc =>
    if c = sep then acc.reverse :: splitOnCharAux sep rest []
    else splitOnCharAux sep rest (c :: acc)

/-- Splitting of a character list at a separator character. -/
def splitOnChar (sep : Char) (l : List Char) : List (List Char) :=
  splitOnCharAux sep l []

/-- Decimal digit-list value. -/
def digitsToNat (l : List Char) : Nat :=
  l.foldl (fun acc c => acc * 10 + (c.toNat - 48)) 0

/-- Allowed non-edge characters of the email local part. -/
def isLocalChar (c : Char) : Bool :=
  c.isAlphanum || c = '.' || c = '_' || c = '+' || c = '-'

/-- Allowed non-edge characters of an email domain label. -/
def isDomainChar (c : Char) : Bool := c.isAlphanum || c = '-'

/-- Matching of the email local part: starts and ends alphanumeric, middle
characters from the local character class. -/
def matchesLocal : List Char → Bool
  | [] => false
  | [c] => c.isAlphanum
  | c :: rest =>
    c.isAlphanum && rest.dropLast.all isLocalChar &&
      (match rest.getLast? with
       | some d => d.isAlphanum
       | none => true)

/-- Matching of one domain label: starts and ends alphanumeric, middle
characters alphanumeric or hyphen. -/
def matchesLabel : List Char → Bool
  | [] => false
  | [c] => c.isAlphanum
  | c :: rest =>
    c.isAlphanum && rest.dropLast.all isDomainChar &&
      (match rest.getLast? with
       | some d => d.isAlphanum
       | none => true)

/-- Detection of two consecutive dots. -/
def hasConsecutiveDots : List Char → Bool
  | '.' :: '.' :: _ => true
  | _ :: rest => hasConsecutiveDots rest
  | [] => false

/-- `validateEmail` of lib/helpers.ts: length bound, no consecutive dots,
and the anchored regex (local part, domain labels, alphabetic TLD of
length at least 2). -/
def validateEmail (email : String) : Bool :=
  if email = "" ∨ 254 < email.length then false
  else if hasConsecutiveDots email.data then false
  else
    match splitOnChar '@' email.data with
    | [lpart, domain] =>
      matchesLocal lpart &&
        (let parts := splitOnChar '.' domain
         2 ≤ parts.length &&
           parts.dropLast.all matchesLabel &&
           (match parts.getLast? with
            | some tld => 2 ≤ tld.length && tld.all Char.isAlpha
            | none => false))
    | _ => false


/-- `validatePositiveNumber`: a number that is at least 0 (the `NaN` guard
of the source has no counterpart on `Rat`). -/
def validatePositiveNumber (value : Rat) : Bool := 0 ≤ value

/-- `validateStringLength` with its throwing behaviour. -/
def validateStringLength (value fieldName : String) (lo hi : Nat) :
    Except String Unit :=
  if value = "" ∨ value.length < lo ∨ hi < value.length then
    .error (fieldName ++ " must be between " ++ toString lo ++ " and " ++
      toString hi ++ " characters")
  else .ok ()

/-- `validateCost` at its default maximum of 100000000 (every caller uses
the default). -/
def validateCost (cost : Rat) : Except String Unit :=
  if ¬ validatePositiveNumber cost then .error "Cost must be a non-negative number"
  else if 100000000 < cost then .error "Cost exceeds maximum allowed value"
  else .ok ()

/-- `validateNotificationDays` at its default maximum of 365 days. -/
def validateNotificationDays (days : Rat) : Except String Unit :=
  if ¬ validatePositiveNumber days ∨ 365 < days then
    .error "Notification days must be between 0 and 365"
  else .ok ()

/-- Validation of a date string via JS `new Date(dateString)` parsing.
Modelled for ISO `YYYY-MM-DD` strings (the only format the application
writes); the implementation-defined fallback formats of `Date.parse` are
not modelled and are conservatively rejected. -/
def validateDateString (dateString : String) : Bool :=
  match splitOnChar '-' dateString.data with
  | [y, m, d] =>
    y.length = 4 && y.all Char.isDigit &&
      m.length = 2 && m.all Char.isDigit &&
      d.length = 2 && d.all Char.isDigit &&
      (let mv := digitsToNat m
       let dv := digitsToNat d
       1 ≤ mv && mv ≤ 12 && 1 ≤ dv && dv ≤ 31)
  | _ => false

/-- Sanitised output of `validateAndSanitizeCommonFields`. -/
structure SanitizedCommonFields where
  name : String
  description : String
  provider : Option String
deriving DecidableEq, Repr

/-- `validateAndSanitizeCommonFields` with explicit option parameters
(callers pass either the defaults 0/1000 or a `descriptionMin` of 10). -/
def validateAndSanitizeCommonFields (nameIn descIn : String)
    (providerIn : Option String) (descriptionMin descriptionMax : Nat) :
    Except String SanitizedCommonFields := do
  let name := sanitizeString nameIn
  let description := sanitizeString descIn
  let provider := match providerIn with
    | some p => if p ≠ "" then some (sanitizeString p) else none
    | none => none
  validateStringLength name "Subscription name" 1 200
  if 0 < descriptionMin then
    validateStringLength description "Description" descriptionMin descriptionMax
  else if descriptionMax < description.length then
    throw ("Description must not exceed " ++ toString descriptionMax ++ " characters")
  else pure ()
  match provider with
  | some p =>
    if p ≠ "" then validateStringLength p "Provider" 1 200 else pure ()
  | none => pure ()
  pure ⟨name, description, provider⟩

/-- Left padding, as `String.prototype.padStart(n, c)`. -/
def padStart (s : String) (n : Nat) (c : Char) : String :=
  String.mk (List.replicate (n - s.length) c) ++ s

/-- The reference string `"<PREFIX>-<year>-<NNN>"` produced by
`generateReferenceNumber` for counter value `v`. -/
def refString (ty : String) (year : Int) (v : Nat) : String :=
  (if ty = "subscription" then "SUB" else "REQ") ++ "-" ++ toString year ++ "-" ++
    padStart (toString v) 3 '0'

/-- `generateReferenceNumber` of lib/helpers.ts: look up the per-type
per-year counter, increment it (creating it at 1 when absent) and format
the reference string.  The calendar year of the mutation clock is passed
explicitly. -/
def generateReferenceNumber (db : DB) (year : Int) (ty : String) :
    Except String (String × DB) := do
  let counterName := ty ++ "-" ++ toString year
  let counter? ← uniqueFind db.counters (fun q => q.name = counterName)
  match counter? with
  | some counter =>
    let nextValue := counter.value + 1
    pure (refString ty year nextValue,
      { db with counters := db.counters.map (fun q =>
          if q.id = counter.id then { q with value := nextValue } else q) })
  | none =>
    pure (refString ty year 1,
      { db with nextId := db.nextId + 1
                counters := db.counters ++ [⟨db.nextId, counterName, 1⟩] })

/-- `requireAdmin` of lib/permissions.ts. -/
def requireAdmin (db : DB) (email : String) : Except String User :=
  if email = "" then .error "Authentication required"
  else do
    let user? ← uniqueFind db.users (fun u => u.email = jsToLower email)
    match user? with
    | none => .error "Authentication required"
    | some user =>
      if user.role ≠ "admin" then .error "Admin access required"
      else pure user

/-- `getEncryptionKey` of credentials.ts, with the `ENCRYPTION_KEY`
environment variable passed explicitly. -/
def getEncryptionKey (envKey : Option String) : Except String String :=
  match envKey with
  | none => .error "ENCRYPTION_KEY environment variable is required"
  | some key =>
    if key = "" then .error "ENCRYPTION_KEY environment variable is required"
    else if key.length < 32 then .error "ENCRYPTION_KEY must be at least 32 characters"
    else .ok key

/-! Calendar arithmetic of the approval workflow (JS `Date.setMonth` /
`Date.setFullYear` followed by `toISOString().split("T")[0]`, on a UTC
clock). -/

/-- A calendar date. -/
structure Date where
  year : Int
  month : Int
  day : Int
deriving DecidableEq, Repr

/-- Gregorian leap-year rule. -/
def isLeapYear (y : Int) : Bool := (y % 4 = 0 && y % 100 ≠ 0) || y % 400 = 0

/-- Number of days of a month (month numbered 1 to 12). -/
def daysInMonth (y m : Int) : Int :=
  if m = 2 then (if isLeapYear y then 29 else 28)
  else if m = 4 ∨ m = 6 ∨ m = 9 ∨ m = 11 then 30
  else 31

/-- JS date normalisation: a day number exceeding the month length rolls
into the following month (day numbers stay at most 31, so at most one
month of roll-over). -/
def normalizeDay (y m d : Int) : Date :=
  if d ≤ daysInMonth y m then ⟨y, m, d⟩
  else if m = 12 then ⟨y + 1, 1, d - daysInMonth y m⟩
  else ⟨y, m + 1, d - daysInMonth y m⟩

/-- `date.setMonth(date.getMonth() + k)`: month arithmetic with year carry
and JS day normalisation. -/
def addMonths (dt : Date) (k : Int) : Date :=
  let t := dt.month - 1 + k
  normalizeDay (dt.year + t / 12) (t % 12 + 1) dt.day

/-- `date.setFullYear(date.getFullYear() + k)` with JS day
normalisation. -/
def addYears (dt : Date) (k : Int) : Date :=
  normalizeDay (dt.year + k) dt.month dt.day

/-- The billing-cycle switch of the `approve` mutation: monthly, quarterly
and half-yearly add 1, 3 and 6 months, yearly adds a year, and any other
value falls through to the default of 1 month. -/
def computeNextRenewalDate (today : Date) (billingCycle : String) : Date :=
  if billingCycle = "monthly" then addMonths today 1
  else if billingCycle = "quarterly" then addMonths today 3
  else if billingCycle = "half-yearly" then addMonths today 6
  else if billingCycle = "yearly" then addYears today 1
  else addMonths today 1

/-- Fixed-width decimal rendering used in ISO dates. -/
def padNum (n : Int) (w : Nat) : String := padStart (toString n) w '0'

/-- The date part of `toISOString()`. -/
def dateToISO (d : Date) : String :=
  padNum d.year 4 ++ "-" ++ padNum d.month 2 ++ "-" ++ padNum d.day 2

/-- The fixed-window test of the submission rate limiter: a record is
limiting when it exists, its window is current
(`windowStart > now - windowMs`) and its count has reached the limit. -/
def rateLimited (limit? : Option RateLimit) (windowStart : Int) (limit : Nat) : Bool :=
  match limit? with
  | some l => windowStart < l.windowStart && limit ≤ l.count
  | none => false

/-- Counter update of the fixed-window limiter: increment inside a current
window, otherwise reset (or create) the record to
`{windowStart := now, count := 1}`. -/
def bumpRateLimit (db : DB) (limit? : Option RateLimit) (key : String)
    (now windowStart : Int) : DB :=
  match limit? with
  | some limit =>
    if windowStart < limit.windowStart then
      { db with rateLimits := db.rateLimits.map (fun r =>
          if r.id = limit.id then { r with count := r.count + 1 } else r) }
    else
      { db with rateLimits := db.rateLimits.map (fun r =>
          if r.id = limit.id then { r with windowStart := now, count := 1 } else r) }
  | none =>
    { db with
        nextId := db.nextId + 1
        rateLimits := db.rateLimits ++ [⟨db.nextId, key, now, 1⟩] }

/-- JS truthiness-guarded sanitisation `x ? sanitizeString(x) : undefined`. -/
def sanitizeOpt (x : Option String) : Option String :=
  match x with
  | some s => if s ≠ "" then some (sanitizeString s) else none
  | none => none

/-- The `notes && notes.length > limit` test of the notes validations. -/
def notesLonger (limit : Nat) (notes : Option String) : Bool :=
  match notes with
  | some s => decide (limit < s.length)
  | none => false

namespace SubscriptionRequests

/-- Arguments of the public `submit` mutation
(convex/subscriptionRequests.ts, required requester fields). -/
structure SubmitArgs where
  name : String
  description : String
  provider : String
  categoryId : Nat
  cost : Rat
  currencyId : Nat
  billingCycle : String
  requestedBy : String
  requesterEmail : String
  requesterDepartment : String
  justification : String
deriving DecidableEq, Repr

/-- Sanitised values produced by the validation prefix of `submit`. -/
structure SubmitSan where
  name : String
  description : String
  provider : String
  requestedBy : String
  requesterEmail : String
  requesterDepartment : String
  justification : String
deriving DecidableEq, Repr

/-- The pure validation prefix of `submit` (no database access): shared
field sanitisation, the strictly-positive cost rule, requester field
validation and the total payload size bound. -/
def submitValidate (args : SubmitArgs) : Except String SubmitSan := do
  let fields ← validateAndSanitizeCommonFields args.name args.description
    (some args.provider) 10 1000
  let requestedBy := sanitizeString args.requestedBy
  let requesterEmail := jsTrim (jsToLower args.requesterEmail)
  let requesterDepartment := sanitizeString args.requesterDepartment
  let justification := sanitizeString args.justification
  if args.cost ≤ 0 then throw "Cost must be a positive number" else pure ()
  validateCost args.cost
  validateStringLength requestedBy "Name" 2 100
  if ¬ validateEmail requesterEmail then throw "Invalid email address format" else pure ()
  if 254 < requesterEmail.length then throw "Email address is too long" else pure ()
  validateStringLength requesterDepartment "Department" 2 100
  validateStringLength justification "Justification" 20 2000
  match fields.provider with
  | none => throw "TypeError: provider is undefined"
  | some provider =>
    let totalSize := fields.name.length + fields.description.length + provider.length +
      requestedBy.length + requesterEmail.length + requesterDepartment.length +
      justification.length
    if 5000 < totalSize then throw "Request data exceeds maximum allowed size"
    else pure ()
    pure ⟨fields.name, fields.description, provider, requestedBy, requesterEmail,
      requesterDepartment, justification⟩

/-- The subscription-request row inserted by a successful `submit`. -/
def mkRequest (requestId : Nat) (ref : String) (args : SubmitArgs) (san : SubmitSan) :
    SubscriptionRequest :=
  ⟨requestId, ref, san.name, san.description, san.provider, args.categoryId, args.cost,
    args.currencyId, args.billingCycle, san.requestedBy, san.requesterEmail,
    san.requesterDepartment, san.justification, "pending", none, none, none⟩

/-- The write suffix of a successful `submit`: both rate-limit counters are
bumped and the new `pending` request is inserted. -/
def submitFinish (db : DB) (now : Int) (args : SubmitArgs) (san : SubmitSan)
    (gl? el? : Option RateLimit) (ref : String) :
    Except String (Nat × String) × DB :=
  let windowStart := now - 3600000
  let db2 := bumpRateLimit db gl? "global" now windowStart
  let db3 := bumpRateLimit db2 el? ("email:" ++ san.requesterEmail) now windowStart
  (.ok (db3.nextId, ref),
    { db3 with
        nextId := db3.nextId + 1
        subscriptionRequests := db3.subscriptionRequests ++ [mkRequest db3.nextId ref args san] })

/-- The public `submit` mutation (convex/subscriptionRequests.ts): validate,
check both fixed-window rate limits, validate category and currency,
allocate a reference number, then bump the counters and insert the request.
The fire-and-forget notification scheduling is a no-op in the model. -/
def submit (db : DB) (now year : Int) (args : SubmitArgs) :
    Except String (Nat × String) × DB :=
  match submitValidate args with
  | .error e => (.error e, db)
  | .ok san =>
    let windowStart := now - 3600000
    let emailKey := "email:" ++ san.requesterEmail
    match uniqueFind db.rateLimits (fun r => r.key = "global") with
    | .error e => (.error e, db)
    | .ok gl? =>
      match uniqueFind db.rateLimits (fun r => r.key = emailKey) with
      | .error e => (.error e, db)
      | .ok el? =>
        if rateLimited gl? windowStart 100 then
          (.error "Service is temporarily busy. Please try again later.", db)
        else if rateLimited el? windowStart 5 then
          (.error "Too many requests from this email. Please try again later.", db)
        else
          match db.categories.find? (fun c => c.id = args.categoryId) with
          | none => (.error "Invalid category", db)
          | some _ =>
            match db.currencies.find? (fun c => c.id = args.currencyId) with
            | none => (.error "Invalid currency", db)
            | some currency =>
              if ¬ currency.isActive then (.error "Selected currency is not active", db)
              else
                match generateReferenceNumber db year "request" with
                | .error e => (.error e, db)
                | .ok (ref, db1) => submitFinish db1 now args san gl? el? ref

/-- Arguments of the `approve` mutation. -/
structure ApproveArgs where
  adminEmail : String
  id : Nat
  adminNotes : Option String
deriving DecidableEq, Repr

/-- The `approve` mutation: admin-only, requires a `pending` request,
allocates a subscription reference number, inserts the new subscription
with computed renewal date and defaults, and patches the request to
`approved`.  The notification scheduling is a no-op in the model. -/
def approve (db : DB) (now : Int) (today : Date) (year : Int) (args : ApproveArgs) :
    Except String (Nat × Nat) × DB :=
  match requireAdmin db args.adminEmail with
  | .error e => (.error e, db)
  | .ok admin =>
    let adminNotes := sanitizeOpt args.adminNotes
    if notesLonger 1000 adminNotes then
      (.error "Admin notes must not exceed 1000 characters", db)
    else
      match db.subscriptionRequests.find? (fun r => r.id = args.id) with
      | none => (.error "Request not found", db)
      | some request =>
        if request.status ≠ "pending" then (.error "Can only approve pending requests", db)
        else
          match generateReferenceNumber db year "subscription" with
          | .error e => (.error e, db)
          | .ok (subscriptionRef, db1) =>
            let nextRenewalDate := computeNextRenewalDate today request.billingCycle
            let subscriptionId := db1.nextId
            let newSub : Subscription := ⟨subscriptionId, subscriptionRef, request.name,
              request.description, request.provider, request.categoryId, request.cost,
              request.currencyId, request.billingCycle, dateToISO nextRenewalDate,
              "other", "active", true, 7⟩
            let db2 := { db1 with nextId := db1.nextId + 1, subscriptions := db1.subscriptions ++ [newSub] }
            let db3 := { db2 with subscriptionRequests := db2.subscriptionRequests.map (fun r => if r.id = args.id then { r with status := "approved", adminNotes := adminNotes, reviewedBy := some admin.email, reviewedAt := some now } else r) }
            (.ok (args.id, subscriptionId), db3)

/-- Arguments of the `reject` mutation (the rejection reason is
required). -/
structure RejectArgs where
  adminEmail : String
  id : Nat
  adminNotes : String
deriving DecidableEq, Repr

/-- The `reject` mutation: admin-only, requires a `pending` request and a
rejection reason of 10 to 1000 characters, and patches the request to
`rejected`. -/
def reject (db : DB) (now : Int) (args : RejectArgs) : Except String Nat × DB :=
  match requireAdmin db args.adminEmail with
  | .error e => (.error e, db)
  | .ok admin =>
    let adminNotes := sanitizeString args.adminNotes
    if adminNotes = "" ∨ adminNotes.length < 10 ∨ 1000 < adminNotes.length then
      (.error "Rejection reason must be between 10 and 1000 characters", db)
    else
      match db.subscriptionRequests.find? (fun r => r.id = args.id) with
      | none => (.error "Request not found", db)
      | some request =>
        if request.status ≠ "pending" then (.error "Can only reject pending requests", db)
        else
          (.ok args.id, { db with subscriptionRequests := db.subscriptionRequests.map (fun r => if r.id = args.id then { r with status := "rejected", adminNotes := some adminNotes, reviewedBy := some admin.email, reviewedAt := some now } else r) })

/-- The request `remove` mutation: admin-only deletion of a request. -/
def remove (db : DB) (adminEmail : String) (id : Nat) : Except String Unit × DB :=
  match requireAdmin db adminEmail with
  | .error e => (.error e, db)
  | .ok _ =>
    match db.subscriptionRequests.find? (fun r => r.id = id) with
    | none => (.error "Request not found", db)
    | some _ =>
      (.ok (), { db with subscriptionRequests :=
        db.subscriptionRequests.filter (fun r => r.id ≠ id) })

end SubscriptionRequests

namespace SubscriptionRequestsOpt

/-- Arguments of the parallel `submit` module with optional requester
fields. -/
structure SubmitArgs where
  name : String
  description : String
  provider : Option String
  categoryId : Nat
  cost : Rat
  currencyId : Nat
  billingCycle : String
  requestedBy : Option String
  requesterEmail : Option String
  requesterDepartment : Option String
  justification : Option String
deriving DecidableEq, Repr

/-- Sanitised values produced by the validation prefix of the optional
variant of `submit`. -/
structure SubmitSan where
  name : String
  description : String
  provider : Option String
  requestedBy : Option String
  requesterEmail : Option String
  requesterDepartment : Option String
  justification : Option String
deriving DecidableEq, Repr

/-- JS truthiness-guarded sanitisation: `x ? f(x) : undefined`. -/
def optSan (f : String → String) : Option String → Option String
  | some s => if s ≠ "" then some (f s) else none
  | none => none

/-- The pure validation prefix of the optional-fields `submit`: optional
fields are validated only when present; the justification minimum is 10
characters here. -/
def submitValidate (args : SubmitArgs) : Except String SubmitSan := do
  let fields ← validateAndSanitizeCommonFields args.name args.description
    args.provider 10 1000
  let requestedBy := optSan sanitizeString args.requestedBy
  let requesterEmail := optSan (fun s => jsTrim (jsToLower s)) args.requesterEmail
  let requesterDepartment := optSan sanitizeString args.requesterDepartment
  let justification := optSan sanitizeString args.justification
  if args.cost ≤ 0 then throw "Cost must be a positive number" else pure ()
  validateCost args.cost
  match requestedBy with
  | some s => if s ≠ "" then validateStringLength s "Name" 2 100 else pure ()
  | none => pure ()
  match requesterEmail with
  | some s =>
    if s ≠ "" then
      if ¬ validateEmail s then throw "Invalid email address format"
      else if 254 < s.length then throw "Email address is too long"
      else pure ()
    else pure ()
  | none => pure ()
  match requesterDepartment with
  | some s => if s ≠ "" then validateStringLength s "Department" 2 100 else pure ()
  | none => pure ()
  match justification with
  | some s => if s ≠ "" then validateStringLength s "Justification" 10 2000 else pure ()
  | none => pure ()
  let totalSize := fields.name.length + fields.description.length +
    (fields.provider.map String.length).getD 0 +
    (requestedBy.map String.length).getD 0 +
    (requesterEmail.map String.length).getD 0 +
    (requesterDepartment.map String.length).getD 0 +
    (justification.map String.length).getD 0
  if 5000 < totalSize then throw "Request data exceeds maximum allowed size"
  else pure ()
  pure ⟨fields.name, fields.description, fields.provider, requestedBy, requesterEmail,
    requesterDepartment, justification⟩

/-- The subscription-request row inserted by the optional variant of
`submit`. -/
def mkRequest (requestId : Nat) (ref : String) (args : SubmitArgs) (san : SubmitSan) :
    SubscriptionRequestOpt :=
  ⟨requestId, ref, san.name, san.description, san.provider, args.categoryId, args.cost,
    args.currencyId, args.billingCycle, san.requestedBy, san.requesterEmail,
    san.requesterDepartment, san.justification, "pending"⟩

/-- The optional-fields public `submit` mutation (parallel module): the
email rate limit is only consulted and bumped when a requester email was
supplied. -/
def submit (db : DB) (now year : Int) (args : SubmitArgs) :
    Except String (Nat × String) × DB :=
  match submitValidate args with
  | .error e => (.error e, db)
  | .ok san =>
    let windowStart := now - 3600000
    let emailKey : Option String := match san.requesterEmail with
      | some e => if e ≠ "" then some ("email:" ++ e) else none
      | none => none
    match uniqueFind db.rateLimits (fun r => r.key = "global") with
    | .error e => (.error e, db)
    | .ok gl? =>
      match (match emailKey with
             | some k => uniqueFind db.rateLimits (fun r => r.key = k)
             | none => .ok none) with
      | .error e => (.error e, db)
      | .ok el? =>
        if rateLimited gl? windowStart 100 then
          (.error "Service is temporarily busy. Please try again later.", db)
        else if rateLimited el? windowStart 5 then
          (.error "Too many requests from this email. Please try again later.", db)
        else
          match db.categories.find? (fun c => c.id = args.categoryId) with
          | none => (.error "Invalid category", db)
          | some _ =>
            match db.currencies.find? (fun c => c.id = args.currencyId) with
            | none => (.error "Invalid currency", db)
            | some currency =>
              if ¬ currency.isActive then (.error "Selected currency is not active", db)
              else
                match generateReferenceNumber db year "request" with
                | .error e => (.error e, db)
                | .ok (ref, db1) =>
                  let db2 := bumpRateLimit db1 gl? "global" now windowStart
                  let db3 := match emailKey with
                    | some k => bumpRateLimit db2 el? k now windowStart
                    | none => db2
                  (.ok (db3.nextId, ref),
                    { db3 with
                        nextId := db3.nextId + 1
                        subscriptionRequestsOpt := db3.subscriptionRequestsOpt ++
                          [mkRequest db3.nextId ref args san] })

end SubscriptionRequestsOpt

namespace Subscriptions

/-- Arguments of the admin `create` mutation. -/
structure CreateArgs where
  adminEmail : String
  name : String
  description : String
  provider : String
  categoryId : Nat
  cost : Rat
  currencyId : Nat
  billingCycle : String
  nextRenewalDate : String
  paymentMethod : String
  status : String
  notificationEnabled : Bool
  notificationDaysBefore : Rat
deriving DecidableEq, Repr

/-- The admin `create` mutation (convex/subscriptions.ts): validation via
the shared helpers (`validateCost` accepts any cost between 0 and
100000000), then reference-number allocation and insertion. -/
def create (db : DB) (year : Int) (args : CreateArgs) : Except String Nat × DB :=
  match requireAdmin db args.adminEmail with
  | .error e => (.error e, db)
  | .ok _ =>
    match validateAndSanitizeCommonFields args.name args.description
        (some args.provider) 0 1000 with
    | .error e => (.error e, db)
    | .ok fields =>
      match validateCost args.cost with
      | .error e => (.error e, db)
      | .ok _ =>
        if ¬ validateDateString args.nextRenewalDate then
          (.error "Invalid renewal date format", db)
        else
          match validateNotificationDays args.notificationDaysBefore with
          | .error e => (.error e, db)
          | .ok _ =>
            match db.categories.find? (fun c => c.id = args.categoryId) with
            | none => (.error "Invalid category", db)
            | some _ =>
              match db.currencies.find? (fun c => c.id = args.currencyId) with
              | none => (.error "Invalid currency", db)
              | some currency =>
                if ¬ currency.isActive then
                  (.error "Selected currency is not active", db)
                else
                  match generateReferenceNumber db year "subscription" with
                  | .error e => (.error e, db)
                  | .ok (ref, db1) =>
                    let newSub : Subscription := ⟨db1.nextId, ref, fields.name,
                      fields.description, fields.provider.getD "", args.categoryId,
                      args.cost, args.currencyId, args.billingCycle,
                      args.nextRenewalDate, args.paymentMethod, args.status,
                      args.notificationEnabled, args.notificationDaysBefore⟩
                    (.ok db1.nextId, { db1 with nextId := db1.nextId + 1, subscriptions := db1.subscriptions ++ [newSub] })

/-- Arguments of the admin `update` mutation. -/
structure UpdateArgs where
  adminEmail : String
  id : Nat
  name : String
  description : String
  provider : String
  categoryId : Nat
  cost : Rat
  currencyId : Nat
  billingCycle : String
  nextRenewalDate : String
  paymentMethod : String
  status : String
  notificationEnabled : Bool
  notificationDaysBefore : Rat
deriving DecidableEq, Repr

/-- The admin `update` mutation: validation as in `create` (without the
currency-active check), then a patch of the subscription row. -/
def update (db : DB) (args : UpdateArgs) : Except String Nat × DB :=
  match requireAdmin db args.adminEmail with
  | .error e => (.error e, db)
  | .ok _ =>
    match validateAndSanitizeCommonFields args.name args.description
        (some args.provider) 0 1000 with
    | .error e => (.error e, db)
    | .ok fields =>
      match validateCost args.cost with
      | .error e => (.error e, db)
      | .ok _ =>
        if ¬ validateDateString args.nextRenewalDate then
          (.error "Invalid renewal date format", db)
        else
          match validateNotificationDays args.notificationDaysBefore with
          | .error e => (.error e, db)
          | .ok _ =>
            match db.subscriptions.find? (fun s => s.id = args.id) with
            | none => (.error "Subscription not found", db)
            | some _ =>
              match db.categories.find? (fun c => c.id = args.categoryId) with
              | none => (.error "Invalid category", db)
              | some _ =>
                match db.currencies.find? (fun c => c.id = args.currencyId) with
                | none => (.error "Invalid currency", db)
                | some _ =>
                  (.ok args.id, { db with subscriptions := db.subscriptions.map (fun s => if s.id = args.id then { s with name := fields.name, description := fields.description, provider := fields.provider.getD "", categoryId := args.categoryId, cost := args.cost, currencyId := args.currencyId, billingCycle := args.billingCycle, nextRenewalDate := args.nextRenewalDate, paymentMethod := args.paymentMethod, status := args.status, notificationEnabled := args.notificationEnabled, notificationDaysBefore := args.notificationDaysBefore } else s) })

/-- One row of the `bulkCreate` payload. -/
structure BulkRow where
  name : String
  description : String
  provider : String
  categoryId : Nat
  cost : Rat
  currencyId : Nat
  billingCycle : String
  nextRenewalDate : String
  paymentMethod : String
  status : String
  notificationEnabled : Bool
  notificationDaysBefore : Rat
deriving DecidableEq, Repr

/-- Per-row result entry of `bulkCreate`. -/
structure BulkRowResult where
  index : Nat
  success : Bool
  referenceNumber : Option String
  error : Option String
deriving DecidableEq, Repr

/-- Summary returned by `bulkCreate`. -/
structure BulkSummary where
  total : Nat
  succeeded : Nat
  failed : Nat
  results : List BulkRowResult
deriving DecidableEq, Repr

/-- The per-row validation of the `bulkCreate` loop, against the category
and currency tables read before the loop (membership in the precomputed
valid-id sets of the source is membership of an existing category, and of
an existing active currency). -/
def bulkRowValidate (categories : List Category) (currencies : List Currency)
    (row : BulkRow) : Except String SanitizedCommonFields := do
  let fields ← validateAndSanitizeCommonFields row.name row.description
    (some row.provider) 0 1000
  validateCost row.cost
  if ¬ validateDateString row.nextRenewalDate then throw "Invalid renewal date"
  else pure ()
  validateNotificationDays row.notificationDaysBefore
  if (categories.find? (fun c => c.id = row.categoryId)).isNone then
    throw "Invalid category"
  else pure ()
  match currencies.find? (fun c => c.id = row.currencyId) with
  | some c => if ¬ c.isActive then throw "Invalid or inactive currency" else pure ()
  | none => throw "Invalid or inactive currency"
  pure fields

/-- The subscription row inserted for a valid bulk row. -/
def mkBulkSub (id : Nat) (ref : String) (fields : SanitizedCommonFields)
    (row : BulkRow) : Subscription :=
  ⟨id, ref, fields.name, fields.description, fields.provider.getD "", row.categoryId,
    row.cost, row.currencyId, row.billingCycle, row.nextRenewalDate, row.paymentMethod,
    row.status, row.notificationEnabled, row.notificationDaysBefore⟩

/-- The row loop of `bulkCreate`: each row is validated and inserted
independently, a per-row failure is caught and recorded without stopping
the loop. -/
def bulkCreateLoop (categories : List Category) (currencies : List Currency)
    (year : Int) (i : Nat) (rows : List BulkRow) (db : DB) :
    List BulkRowResult × DB :=
  match rows with
  | [] => ([], db)
  | row :: rest =>
    match bulkRowValidate categories currencies row with
    | .error e =>
      let (results, dbf) := bulkCreateLoop categories currencies year (i + 1) rest db
      (⟨i, false, none, some e⟩ :: results, dbf)
    | .ok fields =>
      match generateReferenceNumber db year "subscription" with
      | .error e =>
        let (results, dbf) := bulkCreateLoop categories currencies year (i + 1) rest db
        (⟨i, false, none, some e⟩ :: results, dbf)
      | .ok (ref, db1) =>
        let db2 := { db1 with nextId := db1.nextId + 1, subscriptions := db1.subscriptions ++ [mkBulkSub db1.nextId ref fields row] }
        let (results, dbf) := bulkCreateLoop categories currencies year (i + 1) rest db2
        (⟨i, true, some ref, none⟩ :: results, dbf)

/-- The admin `bulkCreate` mutation: at most 100 rows per call, per-row
independent processing, and a summary with one result entry per row. -/
def bulkCreate (db : DB) (year : Int) (adminEmail : String) (rows : List BulkRow) :
    Except String BulkSummary × DB :=
  match requireAdmin db adminEmail with
  | .error e => (.error e, db)
  | .ok _ =>
    if 100 < rows.length then (.error "Maximum 100 subscriptions per bulk import", db)
    else
      let (results, dbf) := bulkCreateLoop db.categories db.currencies year 0 rows db
      (.ok ⟨rows.length, (results.filter (fun r => r.success)).length,
        (results.filter (fun r => !r.success)).length, results⟩, dbf)

/-- The subscription `remove` mutation: admin-only; deletes the
subscription together with its credentials and its audit-log entries. -/
def remove (db : DB) (adminEmail : String) (id : Nat) : Except String Unit × DB :=
  match requireAdmin db adminEmail with
  | .error e => (.error e, db)
  | .ok _ =>
    match db.subscriptions.find? (fun s => s.id = id) with
    | none => (.error "Subscription not found", db)
    | some _ =>
      (.ok (),
        { db with
            subscriptions := db.subscriptions.filter (fun s => s.id ≠ id)
            credentials := db.credentials.filter (fun c => c.subscriptionId ≠ id)
            auditLogs := db.auditLogs.filter (fun l => l.subscriptionId ≠ id) })

end Subscriptions

namespace Credentials

/-- The `reveal` mutation (convex/credentials.ts): admin-only; fetches the
subscription and its unique credential, fails with a not-found error when
either is missing, inserts one audit-log entry (action `viewed` or
`copied`, performed by the admin, at the mutation clock) and only then
decrypts and returns the username and password. -/
def reveal (db : DB) (now : Int) (encKey : Option String) (adminEmail : String)
    (subscriptionId : Nat) (action : String) :
    Except String (String × String) × DB :=
  match requireAdmin db adminEmail with
  | .error e => (.error e, db)
  | .ok admin =>
    match uniqueFind db.credentials (fun c => c.subscriptionId = subscriptionId) with
    | .error e => (.error e, db)
    | .ok credential? =>
      match db.subscriptions.find? (fun s => s.id = subscriptionId) with
      | none => (.error "Subscription not found", db)
      | some subscription =>
        match credential? with
        | none => (.error "No credentials found for this subscription", db)
        | some credential =>
          let entry : AuditLogEntry := ⟨db.nextId, subscriptionId, subscription.name,
            action, admin.email, now⟩
          let db1 := { db with nextId := db.nextId + 1, auditLogs := db.auditLogs ++ [entry] }
          match getEncryptionKey encKey with
          | .error e => (.error e, db1)
          | .ok key =>
            match decrypt credential.password key with
            | .error e => (.error e, db1)
            | .ok password => (.ok (credential.username, password), db1)

/-- The credential `create` mutation: admin-only; validates the fields,
requires the subscription to exist and no credential to exist yet for it,
then stores the encrypted password. -/
def create (db : DB) (encKey : Option String) (iv : List Nat) (adminEmail : String)
    (subscriptionId : Nat) (username password : String) (notes : Option String) :
    Except String Nat × DB :=
  match requireAdmin db adminEmail with
  | .error e => (.error e, db)
  | .ok _ =>
    let usernameSan := sanitizeString username
    let notesSan := sanitizeOpt notes
    if usernameSan = "" ∨ usernameSan.length < 1 ∨ 200 < usernameSan.length then
      (.error "Username must be between 1 and 200 characters", db)
    else if password = "" ∨ password.length < 1 ∨ 500 < password.length then
      (.error "Password must be between 1 and 500 characters", db)
    else if notesLonger 500 notesSan then
      (.error "Notes must not exceed 500 characters", db)
    else
      match uniqueFind db.credentials (fun c => c.subscriptionId = subscriptionId) with
      | .error e => (.error e, db)
      | .ok existing =>
        match db.subscriptions.find? (fun s => s.id = subscriptionId) with
        | none => (.error "Subscription not found", db)
        | some _ =>
          match existing with
          | some _ => (.error "Credentials already exist for this subscription", db)
          | none =>
            match getEncryptionKey encKey with
            | .error e => (.error e, db)
            | .ok key =>
              match encrypt password key iv with
              | .error e => (.error e, db)
              | .ok encryptedPassword =>
                (.ok db.nextId, { db with nextId := db.nextId + 1, credentials := db.credentials ++ [⟨db.nextId, subscriptionId, usernameSan, encryptedPassword, notesSan⟩] })

/-- The credential `update` mutation: admin-only; validates, requires the
credential and its subscription to exist, logs an `updated` audit entry,
then re-encrypts and patches the row. -/
def update (db : DB) (now : Int) (encKey : Option String) (iv : List Nat)
    (adminEmail : String) (id : Nat) (username password : String)
    (notes : Option String) : Except String Nat × DB :=
  match requireAdmin db adminEmail with
  | .error e => (.error e, db)
  | .ok admin =>
    let usernameSan := sanitizeString username
    let notesSan := sanitizeOpt notes
    if usernameSan = "" ∨ usernameSan.length < 1 ∨ 200 < usernameSan.length then
      (.error "Username must be between 1 and 200 characters", db)
    else if password = "" ∨ password.length < 1 ∨ 500 < password.length then
      (.error "Password must be between 1 and 500 characters", db)
    else if notesLonger 500 notesSan then
      (.error "Notes must not exceed 500 characters", db)
    else
      match db.credentials.find? (fun c => c.id = id) with
      | none => (.error "Credential not found", db)
      | some credential =>
        match db.subscriptions.find? (fun s => s.id = credential.subscriptionId) with
        | none => (.error "Associated subscription not found", db)
        | some subscription =>
          let entry : AuditLogEntry := ⟨db.nextId, credential.subscriptionId,
            subscription.name, "updated", admin.email, now⟩
          let db1 := { db with nextId := db.nextId + 1, auditLogs := db.auditLogs ++ [entry] }
          match getEncryptionKey encKey with
          | .error e => (.error e, db1)
          | .ok key =>
            match encrypt password key iv with
            | .error e => (.error e, db1)
            | .ok encryptedPassword =>
              (.ok id, { db1 with credentials := db1.credentials.map (fun c => if c.id = id then { c with username := usernameSan, password := encryptedPassword, notes := notesSan } else c) })

/-- The credential `remove` mutation: admin-only deletion. -/
def remove (db : DB) (adminEmail : String) (id : Nat) : Except String Unit × DB :=
  match requireAdmin db adminEmail with
  | .error e => (.error e, db)
  | .ok _ =>
    match db.credentials.find? (fun c => c.id = id) with
    | none => (.error "Credential not found", db)
    | some _ =>
      (.ok (), { db with credentials := db.credentials.filter (fun c => c.id ≠ id) })

end Credentials

/-- Bind of a successful `Except` computation. -/
theorem except_bind_ok {α β : Type} (a : α) (f : α → Except String β) :
    (Except.ok a : Except String α) >>= f = f a := rfl

/-- Bind of a failed `Except` computation. -/
theorem except_bind_error {α β : Type} (e : String) (f : α → Except String β) :
    (Except.error e : Except String α) >>= f = .error e := rfl

/-- Throwing in the `Except` monad is the error constructor. -/
theorem except_throw_eq {α : Type} (e : String) :
    (throw e : Except String α) = .error e := rfl

/-- The strictly-positive cost rule of the public submission: any cost at
most 0 makes the validation prefix fail. -/
theorem submitValidate_cost_nonpos (args : SubscriptionRequests.SubmitArgs)
    (hcost : args.cost ≤ 0) :
    ∃ e, SubscriptionRequests.submitValidate args = .error e := by
  unfold SubscriptionRequests.submitValidate
  cases h : validateAndSanitizeCommonFields args.name args.description
      (some args.provider) 10 1000 with
  | error e =>
    exact ⟨e, by simp [h, except_bind_error]⟩
  | ok fields =>
    refine ⟨"Cost must be a positive number", ?_⟩
    simp [h, except_bind_ok, except_bind_error, except_throw_eq, hcost]

/-- A concrete admin user for witness databases. -/
def wAdmin : User := ⟨0, "admin@example.com", "Admin", "hash", "admin"⟩

/-- A concrete category for witness databases. -/
def wCategory : Category := ⟨1, "Software", "Tools", "#ff0000"⟩

/-- A concrete active currency for witness databases. -/
def wCurrency : Currency := ⟨2, "INR", "Indian Rupee", "Rs", 1, true⟩

/-- A concrete database with one admin, one category and one active
currency. -/
def wDB : DB :=
  { nextId := 3, users := [wAdmin], categories := [wCategory], currencies := [wCurrency] }

/-- Concrete admin `create` arguments with a cost of 0. -/
def wCreateArgs : Subscriptions.CreateArgs :=
  ⟨"admin@example.com", "Zero cost subscription", "A free tier subscription", "Acme",
    1, 0, 2, "monthly", "2026-03-01", "other", "active", true, 7⟩

/-- Concrete `bulkCreate` row with a cost of 0. -/
def wBulkRow : Subscriptions.BulkRow :=
  ⟨"Zero cost subscription", "A free tier subscription", "Acme", 1, 0, 2, "monthly",
    "2026-03-01", "other", "active", true, 7⟩

/-- Concrete valid public submission arguments. -/
def wSubmitArgs : SubscriptionRequests.SubmitArgs :=
  ⟨"Team chat tool", "A chat tool for the whole team", "Acme", 1, 120, 2, "monthly",
    "Jane Doe", "jane.doe@example.com", "Engineering",
    "We need a chat tool for daily coordination."⟩

/-- The same submission arguments with a cost of 0. -/
def wSubmitZeroCostArgs : SubscriptionRequests.SubmitArgs :=
  ⟨"Team chat tool", "A chat tool for the whole team", "Acme", 1, 0, 2, "monthly",
    "Jane Doe", "jane.doe@example.com", "Engineering",
    "We need a chat tool for daily coordination."⟩

/-- C10: cost validation is asymmetric between the public and admin paths:
the public request submission throws for every cost at most 0, while the
shared admin validator `validateCost` accepts exactly the costs between 0
and 100000000, so the admin `create` and `bulkCreate` operations accept a
cost of 0 (shown at a concrete database). -/
theorem C10_cost_validation_asymmetry :
    (∀ (db : DB) (now year : Int) (args : SubscriptionRequests.SubmitArgs),
        args.cost ≤ 0 →
        ∃ e, (SubscriptionRequests.submit db now year args).1 = .error e) ∧
    (∀ cost : Rat, validateCost cost = .ok () ↔ (0 ≤ cost ∧ cost ≤ 100000000)) ∧
    (wCreateArgs.cost = 0 ∧ (Subscriptions.create wDB 2026 wCreateArgs).1 = .ok 4) ∧
    (wBulkRow.cost = 0 ∧ (Subscriptions.bulkCreate wDB 2026 "admin@example.com"
        [wBulkRow]).1 = .ok ⟨1, 1, 0, [⟨0, true, some "SUB-2026-001", none⟩]⟩) := by
  refine ⟨?_, ?_, ⟨rfl, rfl⟩, ⟨rfl, rfl⟩⟩
  · intro db now year args hcost
    obtain ⟨e, he⟩ := submitValidate_cost_nonpos args hcost
    exact ⟨e, by simp [SubscriptionRequests.submit, he]⟩
  · intro cost
    constructor
    · intro h
      by_contra hn
      rw [not_and_or] at hn
      rcases hn with hn | hn
      · simp [validateCost, validatePositiveNumber, hn] at h
      · have h8 : (100000000 : Rat) < cost := not_le.mp hn
        by_cases h0 : (0 : Rat) ≤ cost
        · simp [validateCost, validatePositiveNumber, h0, h8] at h
        · simp [validateCost, validatePositiveNumber, h0] at h
    · rintro ⟨h1, h2⟩
      simp [validateCost, validatePositiveNumber, h1, not_lt.mpr h2]

/-- Witness for C10: the public submission errors at a concrete database
and concrete arguments whose cost is 0. -/
theorem C10_cost_validation_asymmetry_witness :
    ∃ e, (SubscriptionRequests.submit wDB 5 2026 wSubmitZeroCostArgs).1 = .error e :=
  C10_cost_validation_asymmetry.1 wDB 5 2026 wSubmitZeroCostArgs (le_refl 0)

/-- C6: whenever the public request-submission operation throws (malformed
input, payload too large, invalid category, invalid or inactive currency,
or a rate limit exceeded — indeed any error at all), no state is modified:
the returned database equals the input database, so neither rate-limit
counter, no reference-number counter and no request row changes.  This
holds for both parallel submission modules. -/
theorem C6_submit_error_no_mutation :
    (∀ (db : DB) (now year : Int) (args : SubscriptionRequests.SubmitArgs)
        (e : String) (db' : DB),
        SubscriptionRequests.submit db now year args = (.error e, db') → db' = db) ∧
    (∀ (db : DB) (now year : Int) (args : SubscriptionRequestsOpt.SubmitArgs)
        (e : String) (db' : DB),
        SubscriptionRequestsOpt.submit db now year args = (.error e, db') → db' = db) := by
  constructor
  · intro db now year args e db' h
    unfold SubscriptionRequests.submit at h
    repeat' split at h
    all_goals try simp_all [SubscriptionRequests.submitFinish]
    all_goals repeat' split at h
    all_goals simp_all [SubscriptionRequests.submitFinish]
  · intro db now year args e db' h
    unfold SubscriptionRequestsOpt.submit at h
    repeat' split at h
    all_goals try simp_all
    all_goals repeat' split at h
    all_goals simp_all

/-- Witness for C6: a concrete failing submission (cost 0) leaves the
concrete database untouched. -/
theorem C6_submit_error_no_mutation_witness :
    SubscriptionRequests.submit wDB 5 2026 wSubmitZeroCostArgs =
      (.error "Cost must be a positive number", wDB) ∧
    (SubscriptionRequests.submit wDB 5 2026 wSubmitZeroCostArgs).2 = wDB :=
  ⟨rfl, C6_submit_error_no_mutation.1 wDB 5 2026 wSubmitZeroCostArgs
    "Cost must be a positive number" (SubscriptionRequests.submit wDB 5 2026
      wSubmitZeroCostArgs).2 rfl⟩

/-- A successful reference-number allocation only touches the counters
table (and the id source). -/
theorem generateReferenceNumber_preserves (db : DB) (year : Int) (ty ref : String)
    (db1 : DB) (h : generateReferenceNumber db year ty = .ok (ref, db1)) :
    db1.users = db.users ∧ db1.categories = db.categories ∧
    db1.currencies = db.currencies ∧ db1.subscriptions = db.subscriptions ∧
    db1.credentials = db.credentials ∧
    db1.subscriptionRequests = db.subscriptionRequests ∧
    db1.subscriptionRequestsOpt = db.subscriptionRequestsOpt ∧
    db1.auditLogs = db.auditLogs ∧ db1.rateLimits = db.rateLimits := by
  simp only [generateReferenceNumber] at h
  cases hq : uniqueFind db.counters (fun q => q.name = ty ++ "-" ++ toString year) with
  | error er =>
    rw [hq, except_bind_error] at h
    exact absurd h (by simp)
  | ok counter? =>
    rw [hq, except_bind_ok] at h
    cases counter? with
    | some counter =>
      simp only [pure, Except.pure, Except.ok.injEq, Prod.mk.injEq] at h
      obtain ⟨-, h2⟩ := h
      subst h2
      exact ⟨rfl, rfl, rfl, rfl, rfl, rfl, rfl, rfl, rfl⟩
    | none =>
      simp only [pure, Except.pure, Except.ok.injEq, Prod.mk.injEq] at h
      obtain ⟨-, h2⟩ := h
      subst h2
      exact ⟨rfl, rfl, rfl, rfl, rfl, rfl, rfl, rfl, rfl⟩

/-- A rate-limit counter update only touches the rate-limit table (and the
id source). -/
theorem bumpRateLimit_preserves (db : DB) (l? : Option RateLimit) (k : String)
    (now ws : Int) :
    (bumpRateLimit db l? k now ws).users = db.users ∧
    (bumpRateLimit db l? k now ws).categories = db.categories ∧
    (bumpRateLimit db l? k now ws).currencies = db.currencies ∧
    (bumpRateLimit db l? k now ws).subscriptions = db.subscriptions ∧
    (bumpRateLimit db l? k now ws).credentials = db.credentials ∧
    (bumpRateLimit db l? k now ws).subscriptionRequests = db.subscriptionRequests ∧
    (bumpRateLimit db l? k now ws).subscriptionRequestsOpt = db.subscriptionRequestsOpt ∧
    (bumpRateLimit db l? k now ws).auditLogs = db.auditLogs ∧
    (bumpRateLimit db l? k now ws).counters = db.counters := by
  unfold bumpRateLimit
  repeat' split
  all_goals exact ⟨rfl, rfl, rfl, rfl, rfl, rfl, rfl, rfl, rfl⟩

/-- Patching rows by id commutes with the by-id lookup. -/
theorem find?_patch_requests (l : List SubscriptionRequest) (id : Nat)
    (g : SubscriptionRequest → SubscriptionRequest) (hg : ∀ r, (g r).id = r.id) :
    (l.map (fun r => if r.id = id then g r else r)).find? (fun r => r.id = id)
      = (l.find? (fun r => r.id = id)).map (fun r => if r.id = id then g r else r) := by
  rw [List.find?_map]
  have hpf : ((fun r => decide (r.id = id)) ∘ fun r => if r.id = id then g r else r)
      = (fun r => decide (r.id = id)) := by
    funext r
    by_cases hr : r.id = id
    · simp [Function.comp, hr, hg]
    · simp [Function.comp, hr]
  rw [hpf]

/-- Approving a request whose status is not `pending` fails and leaves the
database unchanged, whatever the other arguments are. -/
theorem approve_nonpending (db : DB) (now : Int) (today : Date) (year : Int)
    (args : SubscriptionRequests.ApproveArgs) (req : SubscriptionRequest)
    (hfind : db.subscriptionRequests.find? (fun r => r.id = args.id) = some req)
    (hst : req.status ≠ "pending") :
    ∃ e, SubscriptionRequests.approve db now today year args = (.error e, db) := by
  unfold SubscriptionRequests.approve
  cases hra : requireAdmin db args.adminEmail with
  | error e => exact ⟨e, by simp only [hra]⟩
  | ok admin =>
    simp only [hra, hfind]
    by_cases hnote : notesLonger 1000 (sanitizeOpt args.adminNotes) = true
    · rw [if_pos hnote]
      exact ⟨_, rfl⟩
    · rw [if_neg hnote, if_pos hst]
      exact ⟨_, rfl⟩

/-- Rejecting a request whose status is not `pending` fails and leaves the
database unchanged, whatever the other arguments are. -/
theorem reject_nonpending (db : DB) (now : Int)
    (args : SubscriptionRequests.RejectArgs) (req : SubscriptionRequest)
    (hfind : db.subscriptionRequests.find? (fun r => r.id = args.id) = some req)
    (hst : req.status ≠ "pending") :
    ∃ e, SubscriptionRequests.reject db now args = (.error e, db) := by
  unfold SubscriptionRequests.reject
  cases hra : requireAdmin db args.adminEmail with
  | error e => exact ⟨e, by simp only [hra]⟩
  | ok admin =>
    simp only [hra, hfind]
    by_cases hlen : sanitizeString args.adminNotes = "" ∨
        (sanitizeString args.adminNotes).length < 10 ∨
        1000 < (sanitizeString args.adminNotes).length
    · rw [if_pos hlen]
      exact ⟨_, rfl⟩
    · rw [if_neg hlen, if_pos hst]
      exact ⟨_, rfl⟩

/-- A successful approval happened on a `pending` request and leaves the
request `approved` in the result state. -/
theorem approve_ok_effects (db : DB) (now : Int) (today : Date) (year : Int)
    (args : SubscriptionRequests.ApproveArgs) (ret : Nat × Nat) (db' : DB)
    (h : SubscriptionRequests.approve db now today year args = (.ok ret, db')) :
    (∃ req, db.subscriptionRequests.find? (fun r => r.id = args.id) = some req ∧
      req.status = "pending") ∧
    (∃ req', db'.subscriptionRequests.find? (fun r => r.id = args.id) = some req' ∧
      req'.status = "approved") := by
  unfold SubscriptionRequests.approve at h
  cases hra : requireAdmin db args.adminEmail with
  | error e => simp [hra] at h
  | ok admin =>
    simp only [hra] at h
    by_cases hnote : notesLonger 1000 (sanitizeOpt args.adminNotes) = true
    · rw [if_pos hnote] at h
      simp at h
    · rw [if_neg hnote] at h
      cases hfind : db.subscriptionRequests.find? (fun r => r.id = args.id) with
      | none => simp [hfind] at h
      | some req =>
        simp only [hfind] at h
        by_cases hst : req.status ≠ "pending"
        · rw [if_pos hst] at h
          simp at h
        · rw [if_neg hst] at h
          cases hgen : generateReferenceNumber db year "subscription" with
          | error e => simp [hgen] at h
          | ok p =>
            obtain ⟨ref, db1⟩ := p
            simp only [hgen] at h
            rw [Prod.mk.injEq] at h
            obtain ⟨-, h2⟩ := h
            subst h2
            have hid : req.id = args.id := by
              have hfs := List.find?_some hfind
              simpa using hfs
            have hpres := generateReferenceNumber_preserves db year "subscription" ref db1 hgen
            have hfind2 : (List.map (fun r => if r.id = args.id then { r with status := "approved", adminNotes := sanitizeOpt args.adminNotes, reviewedBy := some admin.email, reviewedAt := some now } else r) db1.subscriptionRequests).find? (fun r => r.id = args.id) = some { req with status := "approved", adminNotes := sanitizeOpt args.adminNotes, reviewedBy := some admin.email, reviewedAt := some now } := by
              rw [find?_patch_requests _ args.id (fun r => { r with status := "approved", adminNotes := sanitizeOpt args.adminNotes, reviewedBy := some admin.email, reviewedAt := some now }) (fun r => rfl), hpres.2.2.2.2.2.1, hfind]
              simp only [Option.map]
              rw [if_pos hid]
            constructor
            · exact ⟨req, rfl, not_not.mp (fun hc => hst (fun he => hc he))⟩
            · exact ⟨_, hfind2, rfl⟩

/-- A successful rejection happened on a `pending` request and leaves the
request `rejected` in the result state. -/
theorem reject_ok_effects (db : DB) (now : Int)
    (args : SubscriptionRequests.RejectArgs) (ret : Nat) (db' : DB)
    (h : SubscriptionRequests.reject db now args = (.ok ret, db')) :
    (∃ req, db.subscriptionRequests.find? (fun r => r.id = args.id) = some req ∧
      req.status = "pending") ∧
    (∃ req', db'.subscriptionRequests.find? (fun r => r.id = args.id) = some req' ∧
      req'.status = "rejected") := by
  unfold SubscriptionRequests.reject at h
  cases hra : requireAdmin db args.adminEmail with
  | error e => simp [hra] at h
  | ok admin =>
    simp only [hra] at h
    by_cases hlen : sanitizeString args.adminNotes = "" ∨
        (sanitizeString args.adminNotes).length < 10 ∨
        1000 < (sanitizeString args.adminNotes).length
    · rw [if_pos hlen] at h
      simp at h
    · rw [if_neg hlen] at h
      cases hfind : db.subscriptionRequests.find? (fun r => r.id = args.id) with
      | none => simp [hfind] at h
      | some req =>
        simp only [hfind] at h
        by_cases hst : req.status ≠ "pending"
        · rw [if_pos hst] at h
          simp at h
        · rw [if_neg hst] at h
          rw [Prod.mk.injEq] at h
          obtain ⟨-, h2⟩ := h
          subst h2
          have hid : req.id = args.id := by
            have hfs := List.find?_some hfind
            simpa using hfs
          have hfind2 : (List.map (fun r => if r.id = args.id then { r with status := "rejected", adminNotes := some (sanitizeString args.adminNotes), reviewedBy := some admin.email, reviewedAt := some now } else r) db.subscriptionRequests).find? (fun r => r.id = args.id) = some { req with status := "rejected", adminNotes := some (sanitizeString args.adminNotes), reviewedBy := some admin.email, reviewedAt := some now } := by
            rw [find?_patch_requests _ args.id (fun r => { r with status := "rejected", adminNotes := some (sanitizeString args.adminNotes), reviewedBy := some admin.email, reviewedAt := some now }) (fun r => rfl), hfind]
            simp only [Option.map]
            rw [if_pos hid]
          constructor
          · exact ⟨req, rfl, not_not.mp (fun hc => hst (fun he => hc he))⟩
          · exact ⟨_, hfind2, rfl⟩

/-- A successful public submission appends exactly one request row, and
that row has status `pending`. -/
theorem submit_ok_creates_pending (db : DB) (now year : Int)
    (args : SubscriptionRequests.SubmitArgs) (r : Nat × String) (db' : DB)
    (h : SubscriptionRequests.submit db now year args = (.ok r, db')) :
    ∃ req, db'.subscriptionRequests = db.subscriptionRequests ++ [req] ∧
      req.status = "pending" := by
  unfold SubscriptionRequests.submit at h
  cases hval : SubscriptionRequests.submitValidate args with
  | error e => simp [hval] at h
  | ok san =>
    simp only [hval] at h
    cases hgl : uniqueFind db.rateLimits (fun q => q.key = "global") with
    | error e => simp [hgl] at h
    | ok gl? =>
      simp only [hgl] at h
      cases hel : uniqueFind db.rateLimits (fun q => q.key = ("email:" ++ san.requesterEmail)) with
      | error e => simp [hel] at h
      | ok el? =>
        simp only [hel] at h
        by_cases hg : rateLimited gl? (now - 3600000) 100 = true
        · rw [if_pos hg] at h
          simp at h
        · rw [if_neg hg] at h
          by_cases he : rateLimited el? (now - 3600000) 5 = true
          · rw [if_pos he] at h
            simp at h
          · rw [if_neg he] at h
            cases hcat : db.categories.find? (fun c => c.id = args.categoryId) with
            | none => simp [hcat] at h
            | some cat =>
              simp only [hcat] at h
              cases hcur : db.currencies.find? (fun c => c.id = args.currencyId) with
              | none => simp [hcur] at h
              | some cur =>
                simp only [hcur] at h
                by_cases hact : cur.isActive = true
                · rw [if_neg (by simp [hact])] at h
                  cases hgen : generateReferenceNumber db year "request" with
                  | error e => simp [hgen] at h
                  | ok p =>
                    obtain ⟨ref, db1⟩ := p
                    simp only [hgen] at h
                    unfold SubscriptionRequests.submitFinish at h
                    rw [Prod.mk.injEq] at h
                    obtain ⟨-, h2⟩ := h
                    subst h2
                    refine ⟨SubscriptionRequests.mkRequest (bumpRateLimit
                      (bumpRateLimit db1 gl? "global" now (now - 3600000)) el?
                      ("email:" ++ san.requesterEmail) now (now - 3600000)).nextId
                      ref args san, ?_, rfl⟩
                    show (bumpRateLimit (bumpRateLimit db1 gl? "global" now
                        (now - 3600000)) el? ("email:" ++ san.requesterEmail) now
                        (now - 3600000)).subscriptionRequests ++ _
                      = db.subscriptionRequests ++ _
                    rw [(bumpRateLimit_preserves _ el? _ now _).2.2.2.2.2.1,
                      (bumpRateLimit_preserves _ gl? _ now _).2.2.2.2.2.1,
                      (generateReferenceNumber_preserves db year "request" ref db1
                        hgen).2.2.2.2.2.1]
                · rw [if_pos (by simp [hact])] at h
                  simp at h

/-- A concrete pending request row. -/
def wRequest : SubscriptionRequest :=
  ⟨5, "REQ-2026-001", "Team chat tool", "A chat tool for the whole team", "Acme", 1, 120,
    2, "monthly", "Jane Doe", "jane.doe@example.com", "Engineering",
    "We need a chat tool for daily coordination.", "pending", none, none, none⟩

/-- The concrete database extended with the pending request. -/
def wDB2 : DB := { wDB with nextId := 6, subscriptionRequests := [wRequest] }

/-- A concrete approval date. -/
def wDate : Date := ⟨2026, 1, 15⟩

/-- Concrete approval arguments for the pending request. -/
def wApproveArgs : SubscriptionRequests.ApproveArgs := ⟨"admin@example.com", 5, none⟩

/-- C3: every SubscriptionRequest is created with status `pending` (by the
public submission), a non-`pending` request can be neither approved nor
rejected (the mutation throws and changes nothing), and a successful
approval or rejection happened on a `pending` request, after which any
further approve or reject call on that request fails — so a request
transitions at most once. -/
theorem C3_request_lifecycle :
    (∀ (db : DB) (now year : Int) (args : SubscriptionRequests.SubmitArgs)
        (r : Nat × String) (db' : DB),
        SubscriptionRequests.submit db now year args = (.ok r, db') →
        ∃ req, db'.subscriptionRequests = db.subscriptionRequests ++ [req] ∧
          req.status = "pending") ∧
    (∀ (db : DB) (now : Int) (today : Date) (year : Int)
        (args : SubscriptionRequests.ApproveArgs) (req : SubscriptionRequest),
        db.subscriptionRequests.find? (fun q => q.id = args.id) = some req →
        req.status ≠ "pending" →
        ∃ e, SubscriptionRequests.approve db now today year args = (.error e, db)) ∧
    (∀ (db : DB) (now : Int) (args : SubscriptionRequests.RejectArgs)
        (req : SubscriptionRequest),
        db.subscriptionRequests.find? (fun q => q.id = args.id) = some req →
        req.status ≠ "pending" →
        ∃ e, SubscriptionRequests.reject db now args = (.error e, db)) ∧
    (∀ (db : DB) (now : Int) (today : Date) (year : Int)
        (args : SubscriptionRequests.ApproveArgs) (ret : Nat × Nat) (db' : DB),
        SubscriptionRequests.approve db now today year args = (.ok ret, db') →
        (∃ req, db.subscriptionRequests.find? (fun q => q.id = args.id) = some req ∧
          req.status = "pending") ∧
        (∀ (now2 : Int) (today2 : Date) (year2 : Int)
            (args2 : SubscriptionRequests.ApproveArgs), args2.id = args.id →
          ∃ e, SubscriptionRequests.approve db' now2 today2 year2 args2
            = (.error e, db')) ∧
        (∀ (now2 : Int) (args2 : SubscriptionRequests.RejectArgs), args2.id = args.id →
          ∃ e, SubscriptionRequests.reject db' now2 args2 = (.error e, db'))) ∧
    (∀ (db : DB) (now : Int) (args : SubscriptionRequests.RejectArgs) (ret : Nat)
        (db' : DB),
        SubscriptionRequests.reject db now args = (.ok ret, db') →
        (∃ req, db.subscriptionRequests.find? (fun q => q.id = args.id) = some req ∧
          req.status = "pending") ∧
        (∀ (now2 : Int) (today2 : Date) (year2 : Int)
            (args2 : SubscriptionRequests.ApproveArgs), args2.id = args.id →
          ∃ e, SubscriptionRequests.approve db' now2 today2 year2 args2
            = (.error e, db')) ∧
        (∀ (now2 : Int) (args2 : SubscriptionRequests.RejectArgs), args2.id = args.id →
          ∃ e, SubscriptionRequests.reject db' now2 args2 = (.error e, db'))) := by
  refine ⟨submit_ok_creates_pending, approve_nonpending, reject_nonpending, ?_, ?_⟩
  · intro db now today year args ret db' h
    obtain ⟨hpend, req', hfind', hst'⟩ := approve_ok_effects db now today year args ret db' h
    refine ⟨hpend, ?_, ?_⟩
    · intro now2 today2 year2 args2 hid2
      refine approve_nonpending db' now2 today2 year2 args2 req' ?_ ?_
      · rw [hid2]
        exact hfind'
      · rw [hst']
        simp
    · intro now2 args2 hid2
      refine reject_nonpending db' now2 args2 req' ?_ ?_
      · rw [hid2]
        exact hfind'
      · rw [hst']
        simp
  · intro db now args ret db' h
    obtain ⟨hpend, req', hfind', hst'⟩ := reject_ok_effects db now args ret db' h
    refine ⟨hpend, ?_, ?_⟩
    · intro now2 today2 year2 args2 hid2
      refine approve_nonpending db' now2 today2 year2 args2 req' ?_ ?_
      · rw [hid2]
        exact hfind'
      · rw [hst']
        simp
    · intro now2 args2 hid2
      refine reject_nonpending db' now2 args2 req' ?_ ?_
      · rw [hid2]
        exact hfind'
      · rw [hst']
        simp

/-- Witness for C3: approving the concrete pending request succeeds, and
the theorem then yields that a second approval of the same request
fails on the resulting database. -/
theorem C3_request_lifecycle_witness :
    ∃ e, SubscriptionRequests.approve
        (SubscriptionRequests.approve wDB2 55 wDate 2026 wApproveArgs).2 66 wDate 2026
        wApproveArgs
      = (.error e, (SubscriptionRequests.approve wDB2 55 wDate 2026 wApproveArgs).2) :=
  ((C3_request_lifecycle.2.2.2.1 wDB2 55 wDate 2026 wApproveArgs (5, 7)
    (SubscriptionRequests.approve wDB2 55 wDate 2026 wApproveArgs).2 rfl).2.1)
    66 wDate 2026 wApproveArgs rfl

/-- C4: approving a pending request inserts exactly one new Subscription
whose `nextRenewalDate` is the approval date plus one billing-cycle period
under JS calendar month/year arithmetic (monthly +1 month, quarterly +3,
half-yearly +6, yearly +1 year, any other value +1 month), with the
descriptive fields copied from the request and the defaults
`paymentMethod = "other"`, `status = "active"`,
`notificationEnabled = true`, `notificationDaysBefore = 7`; approving a
monthly request on 2026-01-15 yields `nextRenewalDate = "2026-02-15"`. -/
theorem C4_approve_materializes_subscription :
    (∀ (db : DB) (now : Int) (today : Date) (year : Int)
        (args : SubscriptionRequests.ApproveArgs) (ret : Nat × Nat) (db' : DB),
        SubscriptionRequests.approve db now today year args = (.ok ret, db') →
        ∃ req, db.subscriptionRequests.find? (fun q => q.id = args.id) = some req ∧
          ∃ sid subRef, db'.subscriptions = db.subscriptions ++
            [⟨sid, subRef, req.name, req.description, req.provider, req.categoryId,
              req.cost, req.currencyId, req.billingCycle,
              dateToISO (computeNextRenewalDate today req.billingCycle),
              "other", "active", true, 7⟩]) ∧
    (∀ today : Date, computeNextRenewalDate today "monthly" = addMonths today 1) ∧
    (∀ today : Date, computeNextRenewalDate today "quarterly" = addMonths today 3) ∧
    (∀ today : Date, computeNextRenewalDate today "half-yearly" = addMonths today 6) ∧
    (∀ today : Date, computeNextRenewalDate today "yearly" = addYears today 1) ∧
    (∀ (today : Date) (c : String), c ≠ "monthly" → c ≠ "quarterly" →
      c ≠ "half-yearly" → c ≠ "yearly" → computeNextRenewalDate today c
        = addMonths today 1) ∧
    computeNextRenewalDate ⟨2026, 1, 15⟩ "monthly" = ⟨2026, 2, 15⟩ ∧
    dateToISO (computeNextRenewalDate ⟨2026, 1, 15⟩ "monthly") = "2026-02-15" := by
  refine ⟨?_, fun today => rfl, fun today => by simp [computeNextRenewalDate],
    fun today => by simp [computeNextRenewalDate],
    fun today => by simp [computeNextRenewalDate], ?_, by decide, rfl⟩
  · intro db now today year args ret db' h
    unfold SubscriptionRequests.approve at h
    cases hra : requireAdmin db args.adminEmail with
    | error e => simp [hra] at h
    | ok admin =>
      simp only [hra] at h
      by_cases hnote : notesLonger 1000 (sanitizeOpt args.adminNotes) = true
      · rw [if_pos hnote] at h
        simp at h
      · rw [if_neg hnote] at h
        cases hfind : db.subscriptionRequests.find? (fun q => q.id = args.id) with
        | none => simp [hfind] at h
        | some req =>
          simp only [hfind] at h
          by_cases hst : req.status ≠ "pending"
          · rw [if_pos hst] at h
            simp at h
          · rw [if_neg hst] at h
            cases hgen : generateReferenceNumber db year "subscription" with
            | error e => simp [hgen] at h
            | ok p =>
              obtain ⟨subRef, db1⟩ := p
              simp only [hgen] at h
              rw [Prod.mk.injEq] at h
              obtain ⟨-, h2⟩ := h
              subst h2
              refine ⟨req, rfl, db1.nextId, subRef, ?_⟩
              show db1.subscriptions ++ _ = db.subscriptions ++ _
              rw [(generateReferenceNumber_preserves db year "subscription" subRef db1
                hgen).2.2.2.1]
  · intro today c h1 h2 h3 h4
    simp [computeNextRenewalDate, h1, h2, h3, h4]

/-- Witness for C4: the concrete approval on 2026-01-15 inserts the
subscription with renewal date 2026-02-15 and the default fields. -/
theorem C4_approve_materializes_subscription_witness :
    ∃ req, wDB2.subscriptionRequests.find? (fun q => q.id = wApproveArgs.id)
        = some req ∧
      ∃ sid subRef,
        (SubscriptionRequests.approve wDB2 55 wDate 2026 wApproveArgs).2.subscriptions
          = wDB2.subscriptions ++
            [⟨sid, subRef, req.name, req.description, req.provider, req.categoryId,
              req.cost, req.currencyId, req.billingCycle,
              dateToISO (computeNextRenewalDate wDate req.billingCycle),
              "other", "active", true, 7⟩] :=
  C4_approve_materializes_subscription.1 wDB2 55 wDate 2026 wApproveArgs (5, 7)
    (SubscriptionRequests.approve wDB2 55 wDate 2026 wApproveArgs).2 rfl

/-- Mapping a function that fixes every element of a list is the
identity. -/
theorem map_id_of_eq {α : Type} (l : List α) (f : α → α) (h : ∀ a ∈ l, f a = a) :
    l.map f = l := by
  induction l with
  | nil => rfl
  | cons a rest ih =>
    simp only [List.map_cons, h a (by simp), List.cons.injEq, true_and]
    exact ih (fun b hb => h b (by simp [hb]))

/-- Allocation when the per-type per-year counter is absent: the counter
row is created with value 1 and the first reference number is returned. -/
theorem generateReferenceNumber_absent (db : DB) (year : Int) (ty : String)
    (habs : db.counters.filter (fun q => q.name = ty ++ "-" ++ toString year) = []) :
    generateReferenceNumber db year ty = .ok (refString ty year 1,
      { db with nextId := db.nextId + 1, counters := db.counters ++ [⟨db.nextId, ty ++ "-" ++ toString year, 1⟩] }) := by
  have hu : uniqueFind db.counters (fun q => q.name = ty ++ "-" ++ toString year)
      = .ok none := by
    unfold uniqueFind
    rw [habs]
  simp only [generateReferenceNumber]
  rw [hu, except_bind_ok]
  rfl

/-- Allocation when the counter row is present (as the last row, with no
other row of that name and no other row sharing its id): the counter is
incremented and the next reference number is returned. -/
theorem generateReferenceNumber_present (db : DB) (year : Int) (ty : String)
    (i v : Nat) (cs : List Counter)
    (hcs : db.counters = cs ++ [⟨i, ty ++ "-" ++ toString year, v⟩])
    (hfil : cs.filter (fun q => q.name = ty ++ "-" ++ toString year) = [])
    (hids : ∀ q ∈ cs, q.id ≠ i) :
    generateReferenceNumber db year ty = .ok (refString ty year (v + 1),
      { db with counters := cs ++ [⟨i, ty ++ "-" ++ toString year, v + 1⟩] }) := by
  have hu : uniqueFind db.counters (fun q => q.name = ty ++ "-" ++ toString year)
      = .ok (some ⟨i, ty ++ "-" ++ toString year, v⟩) := by
    unfold uniqueFind
    rw [hcs, List.filter_append, hfil]
    simp
  simp only [generateReferenceNumber]
  rw [hu, except_bind_ok]
  have hmap : db.counters.map (fun q : Counter => if q.id = i then { q with value := v + 1 } else q) = cs ++ [⟨i, ty ++ "-" ++ toString year, v + 1⟩] := by
    rw [hcs, List.map_append]
    congr 1
    · exact map_id_of_eq _ _ (fun q hq => by rw [if_neg (hids q hq)])
    · simp
  show Except.ok (refString ty year (v + 1), ({ db with counters := db.counters.map (fun q : Counter => if q.id = i then { q with value := v + 1 } else q) } : DB)) = Except.ok (refString ty year (v + 1), ({ db with counters := cs ++ [⟨i, ty ++ "-" ++ toString year, v + 1⟩] } : DB))
  rw [hmap]

/-- Iterated reference-number allocation, collecting the returned
strings. -/
def allocRefs (year : Int) (ty : String) : Nat → DB → List String × DB
  | 0, db => ([], db)
  | n + 1, db =>
    match generateReferenceNumber db year ty with
    | .error _ => ([], db)
    | .ok (ref, db1) =>
      let (refs, dbf) := allocRefs year ty n db1
      (ref :: refs, dbf)

/-- Allocation runs in the steady state: with the counter row last at
value `v`, `n` further allocations return the values `v+1, …, v+n`. -/
theorem allocRefs_present (year : Int) (ty : String) (n : Nat) :
    ∀ (db : DB) (i v : Nat) (cs : List Counter),
      db.counters = cs ++ [⟨i, ty ++ "-" ++ toString year, v⟩] →
      cs.filter (fun q => q.name = ty ++ "-" ++ toString year) = [] →
      (∀ q ∈ cs, q.id ≠ i) →
      (allocRefs year ty n db).1
        = (List.range n).map (fun k => refString ty year (v + k + 1)) := by
  induction n with
  | zero => intro db i v cs hcs hfil hids; rfl
  | succ m ih =>
    intro db i v cs hcs hfil hids
    have hgen := generateReferenceNumber_present db year ty i v cs hcs hfil hids
    show (allocRefs year ty (m + 1) db).1 = _
    unfold allocRefs
    rw [hgen]
    have ih2 := ih { db with counters := cs ++ [⟨i, ty ++ "-" ++ toString year, v + 1⟩] }
      i (v + 1) cs rfl hfil hids
    show refString ty year (v + 1) :: (allocRefs year ty m ({ db with counters := cs ++ [⟨i, ty ++ "-" ++ toString year, v + 1⟩] } : DB)).1 = List.map (fun k => refString ty year (v + k + 1)) (List.range (m + 1))
    rw [ih2, List.range_succ_eq_map, List.map_cons, List.map_map]
    congr 1
    · refine List.map_congr_left ?_
      intro k hk
      simp only [Function.comp]
      congr 1
      omega

/-- C7: for every entity type and year, successive allocations starting
from no counter row return the reference numbers of the strictly
increasing values 1, 2, 3, …; the counter row is created at 1 when absent
and incremented by 1 when present; the string is
`"<PREFIX>-<year>-<NNN>"` with prefix SUB for subscriptions and REQ
otherwise and the value zero-padded to width at least 3. -/
theorem C7_reference_number_sequence :
    (∀ (db : DB) (year : Int) (ty : String) (n : Nat),
      db.counters.filter (fun q => q.name = ty ++ "-" ++ toString year) = [] →
      (∀ q ∈ db.counters, q.id < db.nextId) →
      (allocRefs year ty n db).1
        = (List.range n).map (fun k => refString ty year (k + 1))) ∧
    (∀ (db : DB) (year : Int) (ty : String),
      db.counters.filter (fun q => q.name = ty ++ "-" ++ toString year) = [] →
      generateReferenceNumber db year ty = .ok (refString ty year 1,
        { db with nextId := db.nextId + 1, counters := db.counters ++ [⟨db.nextId, ty ++ "-" ++ toString year, 1⟩] })) ∧
    (∀ (db : DB) (year : Int) (ty : String) (i v : Nat) (cs : List Counter),
      db.counters = cs ++ [⟨i, ty ++ "-" ++ toString year, v⟩] →
      cs.filter (fun q => q.name = ty ++ "-" ++ toString year) = [] →
      (∀ q ∈ cs, q.id ≠ i) →
      generateReferenceNumber db year ty = .ok (refString ty year (v + 1),
        { db with counters := cs ++ [⟨i, ty ++ "-" ++ toString year, v + 1⟩] })) ∧
    (∀ (ty : String) (year : Int) (v : Nat),
      refString ty year v = (if ty = "subscription" then "SUB" else "REQ") ++ "-" ++
        toString year ++ "-" ++ padStart (toString v) 3 '0' ∧
      3 ≤ (padStart (toString v) 3 '0').length) := by
  refine ⟨?_, generateReferenceNumber_absent, generateReferenceNumber_present, ?_⟩
  · intro db year ty n hfil hids
    cases n with
    | zero => rfl
    | succ m =>
      have hgen := generateReferenceNumber_absent db year ty hfil
      show (allocRefs year ty (m + 1) db).1 = _
      unfold allocRefs
      rw [hgen]
      have ih2 := allocRefs_present year ty m
        { db with nextId := db.nextId + 1, counters := db.counters ++ [⟨db.nextId, ty ++ "-" ++ toString year, 1⟩] }
        db.nextId 1 db.counters rfl hfil
        (fun q hq => Nat.ne_of_lt (hids q hq))
      show refString ty year 1 :: (allocRefs year ty m ({ db with nextId := db.nextId + 1, counters := db.counters ++ [⟨db.nextId, ty ++ "-" ++ toString year, 1⟩] } : DB)).1 = List.map (fun k => refString ty year (k + 1)) (List.range (m + 1))
      rw [ih2, List.range_succ_eq_map, List.map_cons, List.map_map]
      congr 1
      · refine List.map_congr_left ?_
        intro k hk
        simp only [Function.comp]
        congr 1
        omega
  · intro ty year v
    refine ⟨rfl, ?_⟩
    unfold padStart
    rw [String.length_append, String.length_mk, List.length_replicate]
    omega

/-- Witness for C7: three allocations from the empty concrete database
return SUB-2026-001, SUB-2026-002, SUB-2026-003. -/
theorem C7_reference_number_sequence_witness :
    (allocRefs 2026 "subscription" 3 wDB).1
      = ["SUB-2026-001", "SUB-2026-002", "SUB-2026-003"] := by
  have h := C7_reference_number_sequence.1 wDB 2026 "subscription" 3 (by rfl)
    (by decide)
  rw [h]
  rfl

/-- One reveal invocation: mutation clock, caller, subscription and the
`viewed`/`copied` action. -/
structure RevealCall where
  now : Int
  adminEmail : String
  subscriptionId : Nat
  action : String
deriving DecidableEq, Repr

/-- The Convex mutation boundary applied to `reveal`: a thrown error rolls
the whole mutation back. -/
def revealTx (db : DB) (encKey : Option String) (c : RevealCall) :
    Except String (String × String) × DB :=
  match Credentials.reveal db c.now encKey c.adminEmail c.subscriptionId c.action with
  | (.ok r, db') => (.ok r, db')
  | (.error e, _) => (.error e, db)

/-- Sequential reveal calls under the mutation boundary, counting the
successful ones. -/
def runReveals (encKey : Option String) : List RevealCall → DB → DB × Nat
  | [], db => (db, 0)
  | c :: rest, db =>
    match revealTx db encKey c with
    | (.ok _, db') =>
      let (dbf, n) := runReveals encKey rest db'
      (dbf, n + 1)
    | (.error _, db') =>
      let (dbf, n) := runReveals encKey rest db'
      (dbf, n)

/-- A successful reveal appends exactly one audit entry (action, admin
identity, the call clock) and returns the username and the decrypted
password. -/
theorem reveal_ok_appends (db : DB) (now : Int) (encKey : Option String)
    (adminEmail : String) (sid : Nat) (action : String) (r : String × String)
    (db' : DB)
    (h : Credentials.reveal db now encKey adminEmail sid action = (.ok r, db')) :
    ∃ admin sub cred key,
      requireAdmin db adminEmail = .ok admin ∧
      db.subscriptions.find? (fun s => s.id = sid) = some sub ∧
      uniqueFind db.credentials (fun c => c.subscriptionId = sid) = .ok (some cred) ∧
      getEncryptionKey encKey = .ok key ∧
      decrypt cred.password key = .ok r.2 ∧ r.1 = cred.username ∧
      db'.auditLogs = db.auditLogs ++ [⟨db.nextId, sid, sub.name, action,
        admin.email, now⟩] := by
  unfold Credentials.reveal at h
  cases hra : requireAdmin db adminEmail with
  | error e => simp [hra] at h
  | ok admin =>
    simp only [hra] at h
    cases huf : uniqueFind db.credentials (fun c => c.subscriptionId = sid) with
    | error e => simp [huf] at h
    | ok cred? =>
      simp only [huf] at h
      cases hfs : db.subscriptions.find? (fun s => s.id = sid) with
      | none => simp [hfs] at h
      | some sub =>
        simp only [hfs] at h
        cases cred? with
        | none => simp at h
        | some cred =>
          simp only [] at h
          cases hkey : getEncryptionKey encKey with
          | error e => simp [hkey] at h
          | ok key =>
            simp only [hkey] at h
            cases hdec : decrypt cred.password key with
            | error e => simp [hdec] at h
            | ok pw =>
              simp only [hdec] at h
              rw [Prod.mk.injEq, Except.ok.injEq] at h
              obtain ⟨h1, h2⟩ := h
              subst h2
              subst h1
              exact ⟨admin, sub, cred, key, rfl, rfl, rfl, rfl, hdec, rfl, rfl⟩

/-- A reveal on a missing subscription or a missing credential fails with
the corresponding not-found error and changes nothing. -/
theorem reveal_notfound (db : DB) (now : Int) (encKey : Option String)
    (adminEmail : String) (sid : Nat) (action : String) (admin : User)
    (hra : requireAdmin db adminEmail = .ok admin) :
    (∀ cred?, uniqueFind db.credentials (fun c => c.subscriptionId = sid)
        = .ok cred? →
      db.subscriptions.find? (fun s => s.id = sid) = none →
      Credentials.reveal db now encKey adminEmail sid action
        = (.error "Subscription not found", db)) ∧
    (∀ sub, uniqueFind db.credentials (fun c => c.subscriptionId = sid) = .ok none →
      db.subscriptions.find? (fun s => s.id = sid) = some sub →
      Credentials.reveal db now encKey adminEmail sid action
        = (.error "No credentials found for this subscription", db)) := by
  constructor
  · intro cred? huf hfs
    unfold Credentials.reveal
    simp only [hra, huf, hfs]
  · intro sub huf hfs
    unfold Credentials.reveal
    simp only [hra, huf, hfs]

/-- Reveal runs append one audit entry per successful call: the final
audit-log length is the initial one plus the number of successes. -/
theorem runReveals_audit_count (encKey : Option String) (calls : List RevealCall) :
    ∀ db : DB, (runReveals encKey calls db).1.auditLogs.length
      = db.auditLogs.length + (runReveals encKey calls db).2 := by
  induction calls with
  | nil => intro db; rfl
  | cons c rest ih =>
    intro db
    cases htx : revealTx db encKey c with
    | mk res db' =>
      cases res with
      | ok r =>
        have hrun : runReveals encKey (c :: rest) db
            = ((runReveals encKey rest db').1, (runReveals encKey rest db').2 + 1) := by
          show (match revealTx db encKey c with
            | (.ok _, db') =>
              let (dbf, n) := runReveals encKey rest db'
              (dbf, n + 1)
            | (.error _, db') =>
              let (dbf, n) := runReveals encKey rest db'
              (dbf, n)) = _
          rw [htx]
        have hrev : Credentials.reveal db c.now encKey c.adminEmail c.subscriptionId
            c.action = (.ok r, db') := by
          unfold revealTx at htx
          cases hr : Credentials.reveal db c.now encKey c.adminEmail c.subscriptionId
            c.action with
          | mk res2 db2 =>
            cases res2 with
            | ok r2 =>
              rw [hr] at htx
              simpa using htx
            | error e2 =>
              rw [hr] at htx
              simp at htx
        obtain ⟨admin, sub, cred, key, -, -, -, -, -, -, happ⟩ :=
          reveal_ok_appends db c.now encKey c.adminEmail c.subscriptionId c.action
            r db' hrev
        have hlen : db'.auditLogs.length = db.auditLogs.length + 1 := by
          rw [happ]
          simp
        rw [hrun]
        show (runReveals encKey rest db').1.auditLogs.length
          = db.auditLogs.length + ((runReveals encKey rest db').2 + 1)
        rw [ih db', hlen]
        omega
      | error e =>
        have hdb : db' = db := by
          unfold revealTx at htx
          cases hr : Credentials.reveal db c.now encKey c.adminEmail c.subscriptionId
            c.action with
          | mk res2 db2 =>
            cases res2 with
            | ok r2 =>
              rw [hr] at htx
              simp at htx
            | error e2 =>
              rw [hr] at htx
              simp only [Prod.mk.injEq] at htx
              exact htx.2.symm
        have hrun : runReveals encKey (c :: rest) db
            = ((runReveals encKey rest db').1, (runReveals encKey rest db').2) := by
          show (match revealTx db encKey c with
            | (.ok _, db') =>
              let (dbf, n) := runReveals encKey rest db'
              (dbf, n + 1)
            | (.error _, db') =>
              let (dbf, n) := runReveals encKey rest db'
              (dbf, n)) = _
          rw [htx]
        rw [hrun]
        show (runReveals encKey rest db').1.auditLogs.length
          = db.auditLogs.length + (runReveals encKey rest db').2
        rw [hdb] at *
        exact ih db

/-- A concrete 32-character encryption key. -/
def wKey : String := "abcdefghijklmnopqrstuvwxyz012345"

/-- A concrete 16-byte IV. -/
def wIV : List Nat := List.range 16

/-- The concrete ciphertext stored for the witness credential. -/
def wCipher : String :=
  match encrypt "hunter2" wKey wIV with
  | .ok s => s
  | .error _ => ""

/-- A concrete subscription owning the witness credential. -/
def wSubscription : Subscription :=
  ⟨7, "SUB-2026-001", "Team chat tool", "A chat tool for the whole team", "Acme", 1,
    120, 2, "monthly", "2026-02-15", "other", "active", true, 7⟩

/-- The concrete credential of the witness subscription. -/
def wCredential : Credential := ⟨8, 7, "jane", wCipher, none⟩

/-- The concrete database holding the witness subscription and credential. -/
def wDB3 : DB :=
  { wDB with nextId := 9, subscriptions := [wSubscription], credentials := [wCredential] }

/-- The database after the witness reveal: one audit entry appended. -/
def wDB4 : DB :=
  { wDB3 with nextId := 10, auditLogs := [⟨9, 7, "Team chat tool", "viewed", "admin@example.com", 99⟩] }

/-- C2: every successful reveal inserts exactly one audit entry recording
the action, the admin identity and the call timestamp before returning the
username and decrypted password; N reveal calls produce exactly as many
audit entries as there were successes; and a reveal failing because the
subscription or the credential is missing throws the corresponding
not-found error and inserts nothing. -/
theorem C2_reveal_audit :
    (∀ (db : DB) (now : Int) (encKey : Option String) (adminEmail : String)
        (sid : Nat) (action : String) (r : String × String) (db' : DB),
      Credentials.reveal db now encKey adminEmail sid action = (.ok r, db') →
      ∃ admin sub cred key,
        requireAdmin db adminEmail = .ok admin ∧
        db.subscriptions.find? (fun s => s.id = sid) = some sub ∧
        uniqueFind db.credentials (fun c => c.subscriptionId = sid) = .ok (some cred) ∧
        getEncryptionKey encKey = .ok key ∧
        decrypt cred.password key = .ok r.2 ∧ r.1 = cred.username ∧
        db'.auditLogs = db.auditLogs ++ [⟨db.nextId, sid, sub.name, action,
          admin.email, now⟩]) ∧
    (∀ (encKey : Option String) (calls : List RevealCall) (db : DB),
      (runReveals encKey calls db).1.auditLogs.length
        = db.auditLogs.length + (runReveals encKey calls db).2) ∧
    (∀ (db : DB) (now : Int) (encKey : Option String) (adminEmail : String)
        (sid : Nat) (action : String) (admin : User),
      requireAdmin db adminEmail = .ok admin →
      (∀ cred?, uniqueFind db.credentials (fun c => c.subscriptionId = sid)
          = .ok cred? →
        db.subscriptions.find? (fun s => s.id = sid) = none →
        Credentials.reveal db now encKey adminEmail sid action
          = (.error "Subscription not found", db)) ∧
      (∀ sub, uniqueFind db.credentials (fun c => c.subscriptionId = sid) = .ok none →
        db.subscriptions.find? (fun s => s.id = sid) = some sub →
        Credentials.reveal db now encKey adminEmail sid action
          = (.error "No credentials found for this subscription", db))) :=
  ⟨reveal_ok_appends,
   fun encKey calls db => runReveals_audit_count encKey calls db,
   reveal_notfound⟩

/-- Witness for C2: the concrete reveal succeeds returning the username and
the decrypted password, and appends exactly the expected audit entry. -/
theorem C2_reveal_audit_witness :
    Credentials.reveal wDB3 99 (some wKey) "admin@example.com" 7 "viewed"
      = (.ok ("jane", "hunter2"), wDB4) ∧
    wDB4.auditLogs = wDB3.auditLogs ++ [⟨wDB3.nextId, 7, wSubscription.name,
      "viewed", wAdmin.email, 99⟩] := by
  obtain ⟨ct, hct, hd⟩ :=
    decrypt_encrypt_ok "hunter2" wKey wIV (by decide) (by decide) (by decide)
  have hwc : wCipher = ct := by
    unfold wCipher
    rw [hct]
  have hdec : decrypt wCredential.password wKey = .ok "hunter2" := by
    show decrypt wCipher wKey = .ok "hunter2"
    rw [hwc]
    exact hd
  have h1 : requireAdmin wDB3 "admin@example.com" = .ok wAdmin := rfl
  have h2 : uniqueFind wDB3.credentials (fun c => c.subscriptionId = 7)
      = .ok (some wCredential) := rfl
  have h3 : wDB3.subscriptions.find? (fun s => s.id = 7) = some wSubscription := rfl
  have h4 : getEncryptionKey (some wKey) = .ok wKey := rfl
  have hrev : Credentials.reveal wDB3 99 (some wKey) "admin@example.com" 7 "viewed"
      = (.ok ("jane", "hunter2"), wDB4) := by
    unfold Credentials.reveal
    simp only [h1, h2, h3, h4, hdec]
    rfl
  refine ⟨hrev, ?_⟩
  obtain ⟨admin, sub, cred, key, ha, hsub, -, -, -, -, happ⟩ :=
    C2_reveal_audit.1 wDB3 99 (some wKey) "admin@example.com" 7 "viewed"
      ("jane", "hunter2") wDB4 hrev
  have ha2 : admin = wAdmin := Except.ok.inj (ha.symm.trans h1)
  have hs2 : sub = wSubscription := Option.some.inj (hsub.symm.trans h3)
  rw [ha2, hs2] at happ
  exact happ

/-- The sanitised field values of the concrete valid submission. -/
def wSan : SubscriptionRequests.SubmitSan :=
  ⟨"Team chat tool", "A chat tool for the whole team", "Acme", "Jane Doe",
    "jane.doe@example.com", "Engineering", "We need a chat tool for daily coordination."⟩

/-- Database state after `k` successful submissions of `wSubmitArgs`, all
inside the rate-limit window opened at `t1`. -/
def c5db (t1 : Int) (k : Nat) : DB :=
  { wDB with
      nextId := 6 + k
      subscriptionRequests := (List.range k).map (fun i =>
        SubscriptionRequests.mkRequest (6 + i) (refString "request" 2026 (i + 1))
          wSubmitArgs wSan)
      counters := [⟨3, "request-2026", k⟩]
      rateLimits := [⟨4, "global", t1, k⟩, ⟨5, "email:jane.doe@example.com", t1, k⟩] }

/-- Database state after the out-of-window seventh submission: both
rate-limit windows reset to `{windowStart := t7, count := 1}`. -/
def c5dbReset (t7 : Int) : DB :=
  { wDB with
      nextId := 12
      subscriptionRequests := (List.range 6).map (fun i =>
        SubscriptionRequests.mkRequest (6 + i) (refString "request" 2026 (i + 1))
          wSubmitArgs wSan)
      counters := [⟨3, "request-2026", 6⟩]
      rateLimits := [⟨4, "global", t7, 1⟩, ⟨5, "email:jane.doe@example.com", t7, 1⟩] }

/-- Evaluation of `submit` on the success path, given the results of each
database access. -/
theorem submit_eval (db : DB) (now year : Int) (args : SubscriptionRequests.SubmitArgs)
    (san : SubscriptionRequests.SubmitSan) (gl? el? : Option RateLimit)
    (cat : Category) (cur : Currency) (ref : String) (db1 : DB)
    (hval : SubscriptionRequests.submitValidate args = .ok san)
    (hgl : uniqueFind db.rateLimits (fun r => r.key = "global") = .ok gl?)
    (hel : uniqueFind db.rateLimits (fun r => r.key = "email:" ++ san.requesterEmail)
      = .ok el?)
    (hg : rateLimited gl? (now - 3600000) 100 = false)
    (he : rateLimited el? (now - 3600000) 5 = false)
    (hcat : db.categories.find? (fun c => c.id = args.categoryId) = some cat)
    (hcur : db.currencies.find? (fun c => c.id = args.currencyId) = some cur)
    (hact : cur.isActive = true)
    (hgen : generateReferenceNumber db year "request" = .ok (ref, db1)) :
    SubscriptionRequests.submit db now year args
      = SubscriptionRequests.submitFinish db1 now args san gl? el? ref := by
  unfold SubscriptionRequests.submit
  simp only [hval, hgl, hel, hg, he, hcat, hcur, hact, hgen]
  simp

/-- A single in-window follow-up submission: the request is inserted and
both window counts increment, keeping the window start. -/
theorem c5_step (t1 t : Int) (k : Nat) (hk5 : k < 5) (hw : t < t1 + 3600000) :
    SubscriptionRequests.submit (c5db t1 k) t 2026 wSubmitArgs
      = (.ok (6 + k, refString "request" 2026 (k + 1)), c5db t1 (k + 1)) := by
  have hgen : generateReferenceNumber (c5db t1 k) 2026 "request"
      = .ok (refString "request" 2026 (k + 1),
        { c5db t1 k with counters := [⟨3, "request-2026", k + 1⟩] }) := rfl
  have hg : rateLimited (some ⟨4, "global", t1, k⟩) (t - 3600000) 100 = false := by
    unfold rateLimited
    simp
    omega
  have he : rateLimited (some ⟨5, "email:jane.doe@example.com", t1, k⟩) (t - 3600000) 5
      = false := by
    unfold rateLimited
    simp
    omega
  have h0 := submit_eval (c5db t1 k) t 2026 wSubmitArgs wSan
    (some ⟨4, "global", t1, k⟩) (some ⟨5, "email:jane.doe@example.com", t1, k⟩)
    wCategory wCurrency (refString "request" 2026 (k + 1))
    { c5db t1 k with counters := [⟨3, "request-2026", k + 1⟩] }
    rfl rfl rfl hg he rfl rfl rfl hgen
  rw [h0]
  have hlt : t - 3600000 < t1 := by omega
  unfold SubscriptionRequests.submitFinish bumpRateLimit
  dsimp only
  simp only [if_pos hlt]
  have hreq : (List.range k).map (fun i =>
        SubscriptionRequests.mkRequest (6 + i) (refString "request" 2026 (i + 1))
          wSubmitArgs wSan) ++
      [SubscriptionRequests.mkRequest (6 + k) (refString "request" 2026 (k + 1))
        wSubmitArgs wSan]
      = (List.range (k + 1)).map (fun i =>
        SubscriptionRequests.mkRequest (6 + i) (refString "request" 2026 (i + 1))
          wSubmitArgs wSan) := by
    rw [List.range_succ, List.map_append]
    rfl
  show (Except.ok (6 + k, refString "request" 2026 (k + 1)),
    ({ c5db t1 k with
        nextId := 6 + k + 1
        subscriptionRequests := (List.range k).map (fun i =>
          SubscriptionRequests.mkRequest (6 + i) (refString "request" 2026 (i + 1))
            wSubmitArgs wSan) ++
          [SubscriptionRequests.mkRequest (6 + k) (refString "request" 2026 (k + 1))
            wSubmitArgs wSan]
        counters := [⟨3, "request-2026", k + 1⟩]
        rateLimits := [⟨4, "global", t1, k + 1⟩,
          ⟨5, "email:jane.doe@example.com", t1, k + 1⟩] } : DB))
    = (Except.ok (6 + k, refString "request" 2026 (k + 1)), c5db t1 (k + 1))
  rw [hreq]
  rfl

/-- The first submission creates both window records with count 1. -/
theorem c5_first (t1 : Int) :
    SubscriptionRequests.submit wDB t1 2026 wSubmitArgs
      = (.ok (6, "REQ-2026-001"), c5db t1 1) := rfl

/-- The sixth in-window submission is throttled and changes nothing. -/
theorem c5_denied (t1 t : Int) (hw : t < t1 + 3600000) :
    SubscriptionRequests.submit (c5db t1 5) t 2026 wSubmitArgs
      = (.error "Too many requests from this email. Please try again later.", c5db t1 5) := by
  have hg : rateLimited (some ⟨4, "global", t1, 5⟩) (t - 3600000) 100 = false := by
    unfold rateLimited
    simp
  have he : rateLimited (some ⟨5, "email:jane.doe@example.com", t1, 5⟩) (t - 3600000) 5
      = true := by
    unfold rateLimited
    simp
    omega
  unfold SubscriptionRequests.submit
  simp only [show SubscriptionRequests.submitValidate wSubmitArgs = .ok wSan from rfl,
    show uniqueFind (c5db t1 5).rateLimits (fun r => r.key = "global")
      = .ok (some ⟨4, "global", t1, 5⟩) from rfl,
    show uniqueFind (c5db t1 5).rateLimits
        (fun r => r.key = "email:" ++ wSan.requesterEmail)
      = .ok (some ⟨5, "email:jane.doe@example.com", t1, 5⟩) from rfl,
    hg, he]
  simp

/-- An out-of-window submission succeeds and resets both window records. -/
theorem c5_reset (t1 t7 : Int) (hw : t1 + 3600000 < t7) :
    SubscriptionRequests.submit (c5db t1 5) t7 2026 wSubmitArgs
      = (.ok (11, "REQ-2026-006"), c5dbReset t7) := by
  have hnlt : ¬ t7 - 3600000 < t1 := by omega
  have hg : rateLimited (some ⟨4, "global", t1, 5⟩) (t7 - 3600000) 100 = false := by
    unfold rateLimited
    simp
  have he : rateLimited (some ⟨5, "email:jane.doe@example.com", t1, 5⟩) (t7 - 3600000) 5
      = false := by
    unfold rateLimited
    simp
    omega
  have hgen : generateReferenceNumber (c5db t1 5) 2026 "request"
      = .ok ("REQ-2026-006", { c5db t1 5 with counters := [⟨3, "request-2026", 6⟩] }) := rfl
  have h0 := submit_eval (c5db t1 5) t7 2026 wSubmitArgs wSan
    (some ⟨4, "global", t1, 5⟩) (some ⟨5, "email:jane.doe@example.com", t1, 5⟩)
    wCategory wCurrency "REQ-2026-006"
    { c5db t1 5 with counters := [⟨3, "request-2026", 6⟩] }
    rfl rfl rfl hg he rfl rfl rfl hgen
  rw [h0]
  unfold SubscriptionRequests.submitFinish bumpRateLimit
  dsimp only
  simp only [if_neg hnlt]
  rfl

/-- C5: from no window record, five submissions inside the one-hour window
keyed by the requester email succeed, each incrementing the window count
(the first creating the record with count 1); the sixth in-window
submission is denied with the throttling error and no mutation; and once
more than an hour has elapsed since the window start, the next submission
succeeds and resets the record to `{windowStart := now, count := 1}`. -/
theorem C5_email_rate_limiter (t1 t2 t3 t4 t5 t6 t7 : Int)
    (h2 : t2 < t1 + 3600000) (h3 : t3 < t1 + 3600000) (h4 : t4 < t1 + 3600000)
    (h5 : t5 < t1 + 3600000) (h6 : t6 < t1 + 3600000) (h7 : t1 + 3600000 < t7) :
    SubscriptionRequests.submit wDB t1 2026 wSubmitArgs
      = (.ok (6, "REQ-2026-001"), c5db t1 1) ∧
    SubscriptionRequests.submit (c5db t1 1) t2 2026 wSubmitArgs
      = (.ok (7, "REQ-2026-002"), c5db t1 2) ∧
    SubscriptionRequests.submit (c5db t1 2) t3 2026 wSubmitArgs
      = (.ok (8, "REQ-2026-003"), c5db t1 3) ∧
    SubscriptionRequests.submit (c5db t1 3) t4 2026 wSubmitArgs
      = (.ok (9, "REQ-2026-004"), c5db t1 4) ∧
    SubscriptionRequests.submit (c5db t1 4) t5 2026 wSubmitArgs
      = (.ok (10, "REQ-2026-005"), c5db t1 5) ∧
    SubscriptionRequests.submit (c5db t1 5) t6 2026 wSubmitArgs
      = (.error "Too many requests from this email. Please try again later.", c5db t1 5) ∧
    SubscriptionRequests.submit (c5db t1 5) t7 2026 wSubmitArgs
      = (.ok (11, "REQ-2026-006"), c5dbReset t7) ∧
    (∀ k, (c5db t1 k).rateLimits
      = [⟨4, "global", t1, k⟩, ⟨5, "email:jane.doe@example.com", t1, k⟩]) ∧
    (c5dbReset t7).rateLimits
      = [⟨4, "global", t7, 1⟩, ⟨5, "email:jane.doe@example.com", t7, 1⟩] :=
  ⟨c5_first t1,
   c5_step t1 t2 1 (by omega) h2,
   c5_step t1 t3 2 (by omega) h3,
   c5_step t1 t4 3 (by omega) h4,
   c5_step t1 t5 4 (by omega) h5,
   c5_denied t1 t6 h6,
   c5_reset t1 t7 h7,
   fun k => rfl,
   rfl⟩

/-- Witness for C5 at concrete clock values: the sixth call at time 5 is
denied without mutation and the call at time 3600001 resets the window. -/
theorem C5_email_rate_limiter_witness :
    SubscriptionRequests.submit (c5db 0 5) 5 2026 wSubmitArgs
      = (.error "Too many requests from this email. Please try again later.", c5db 0 5) ∧
    SubscriptionRequests.submit (c5db 0 5) 3600001 2026 wSubmitArgs
      = (.ok (11, "REQ-2026-006"), c5dbReset 3600001) := by
  obtain ⟨-, -, -, -, -, h6, h7, -⟩ :=
    C5_email_rate_limiter 0 1 2 3 4 5 3600001 (by decide) (by decide) (by decide)
      (by decide) (by decide) (by decide)
  exact ⟨h6, h7⟩

/-- Whether an `Except` computation succeeded. -/
def exceptIsOk {ε α : Type} : Except ε α → Bool
  | .ok _ => true
  | .error _ => false

/-- At most one counter row for the subscription reference sequence of the
year: the uniqueness assumption of the `by_name` unique index. -/
def counterInv (year : Int) (db : DB) : Prop :=
  (db.counters.filter (fun q => q.name = "subscription" ++ "-" ++ toString year)).length ≤ 1

/-- Splitting a result list by success: the two filtered lengths sum to the
full length. -/
theorem length_filter_success (l : List Subscriptions.BulkRowResult) :
    (l.filter (fun r => r.success)).length + (l.filter (fun r => !r.success)).length
      = l.length := by
  induction l with
  | nil => rfl
  | cons r rest ih =>
    by_cases h : r.success = true
    · simp [List.filter, h]
      omega
    · simp only [Bool.not_eq_true] at h
      simp [List.filter, h]
      omega

/-- Under the counter-uniqueness assumption, a subscription reference
allocation always succeeds, leaves every non-counter table unchanged and
preserves the assumption. -/
theorem generateReferenceNumber_ok (db : DB) (year : Int) (hC : counterInv year db) :
    ∃ ref db1, generateReferenceNumber db year "subscription" = .ok (ref, db1) ∧
      db1.subscriptions = db.subscriptions ∧ db1.categories = db.categories ∧
      db1.currencies = db.currencies ∧ counterInv year db1 := by
  unfold counterInv at hC
  cases hf : db.counters.filter (fun q => q.name = "subscription" ++ "-" ++ toString year) with
  | nil =>
    refine ⟨refString "subscription" year 1,
      { db with nextId := db.nextId + 1
                counters := db.counters ++ [⟨db.nextId, "subscription" ++ "-" ++ toString year, 1⟩] },
      ?_, rfl, rfl, rfl, ?_⟩
    · unfold generateReferenceNumber uniqueFind
      simp only [hf]
      rfl
    · unfold counterInv
      simp only [List.filter_append, hf]
      simp
  | cons x xs =>
    cases xs with
    | nil =>
      refine ⟨refString "subscription" year (x.value + 1),
        { db with counters := db.counters.map (fun q =>
            if q.id = x.id then { q with value := x.value + 1 } else q) },
        ?_, rfl, rfl, rfl, ?_⟩
      · unfold generateReferenceNumber uniqueFind
        simp only [hf]
        rfl
      · unfold counterInv
        rw [List.filter_map]
        simp only [List.length_map]
        have hp : ((fun q : Counter => decide (q.name = "subscription" ++ "-" ++ toString year)) ∘
            (fun q : Counter => if q.id = x.id then { q with value := x.value + 1 } else q))
            = (fun q : Counter => decide (q.name = "subscription" ++ "-" ++ toString year)) := by
          funext q
          by_cases h : q.id = x.id
          · simp [h]
          · simp [h]
        rw [hp, hf]
        simp
    | cons y ys =>
      rw [hf] at hC
      simp at hC

/-- Insertion of one subscription row, as performed by the `bulkCreate`
loop body. -/
def bulkInsert (db : DB) (sub : Subscription) : DB :=
  { db with nextId := db.nextId + 1, subscriptions := db.subscriptions ++ [sub] }

/-- Row-loop specification of `bulkCreate`: one result entry per row with
consecutive indices, per-row success decided by that row's validation
alone, one inserted subscription per success, failure entries carrying the
error, and the counter assumption preserved. -/
theorem bulkCreateLoop_spec (cats : List Category) (curs : List Currency) (year : Int)
    (rows : List Subscriptions.BulkRow) : ∀ (i : Nat) (db : DB), counterInv year db →
    (Subscriptions.bulkCreateLoop cats curs year i rows db).1.length = rows.length ∧
    (Subscriptions.bulkCreateLoop cats curs year i rows db).1.map (fun r => r.index)
      = (List.range rows.length).map (fun j => i + j) ∧
    (Subscriptions.bulkCreateLoop cats curs year i rows db).1.map (fun r => r.success)
      = rows.map (fun row => exceptIsOk (Subscriptions.bulkRowValidate cats curs row)) ∧
    (Subscriptions.bulkCreateLoop cats curs year i rows db).2.subscriptions.length
      = db.subscriptions.length
        + ((Subscriptions.bulkCreateLoop cats curs year i rows db).1.filter
            (fun r => r.success)).length ∧
    (∀ r ∈ (Subscriptions.bulkCreateLoop cats curs year i rows db).1,
      (r.success = false → r.referenceNumber = none ∧ ∃ e, r.error = some e) ∧
      (r.success = true → r.error = none ∧ ∃ ref, r.referenceNumber = some ref)) ∧
    counterInv year (Subscriptions.bulkCreateLoop cats curs year i rows db).2 := by
  induction rows with
  | nil =>
    intro i db hC
    refine ⟨rfl, rfl, rfl, by simp [Subscriptions.bulkCreateLoop], ?_, hC⟩
    intro r hr
    simp [Subscriptions.bulkCreateLoop] at hr
  | cons row rest ih =>
    intro i db hC
    cases hv : Subscriptions.bulkRowValidate cats curs row with
    | error e =>
      have hrun : Subscriptions.bulkCreateLoop cats curs year i (row :: rest) db
          = (⟨i, false, none, some e⟩ ::
              (Subscriptions.bulkCreateLoop cats curs year (i + 1) rest db).1,
             (Subscriptions.bulkCreateLoop cats curs year (i + 1) rest db).2) := by
        simp only [Subscriptions.bulkCreateLoop]
        rw [hv]
      obtain ⟨ih1, ih2, ih3, ih4, ih5, ih6⟩ := ih (i + 1) db hC
      rw [hrun]
      refine ⟨by simp [ih1], ?_, ?_, ?_, ?_, ih6⟩
      · have hmaps : (List.range rest.length).map (fun j => i + 1 + j)
            = (List.range rest.length).map ((fun j => i + j) ∘ Nat.succ) := by
          apply List.map_congr_left
          intro a ha
          simp
          omega
        simp only [List.map_cons, ih2, List.length_cons, List.range_succ_eq_map,
          List.map_map, Nat.add_zero]
        rw [hmaps]
      · simp only [List.map_cons, ih3, hv]
        rfl
      · simp only [List.filter_cons]
        simp [ih4]
      · intro r hr
        rcases List.mem_cons.mp hr with hr | hr
        · subst hr
          refine ⟨fun _ => ⟨rfl, e, rfl⟩, fun htrue => ?_⟩
          simp at htrue
        · exact ih5 r hr
    | ok fields =>
      obtain ⟨ref, db1, hgen, hsubs1, -, -, hC1⟩ := generateReferenceNumber_ok db year hC
      have hC2 : counterInv year
          (bulkInsert db1 (Subscriptions.mkBulkSub db1.nextId ref fields row)) := hC1
      have hrun : Subscriptions.bulkCreateLoop cats curs year i (row :: rest) db
          = (⟨i, true, some ref, none⟩ ::
              (Subscriptions.bulkCreateLoop cats curs year (i + 1) rest
                (bulkInsert db1 (Subscriptions.mkBulkSub db1.nextId ref fields row))).1,
             (Subscriptions.bulkCreateLoop cats curs year (i + 1) rest
                (bulkInsert db1 (Subscriptions.mkBulkSub db1.nextId ref fields row))).2) := by
        simp only [Subscriptions.bulkCreateLoop]
        rw [hv, hgen]
        rfl
      obtain ⟨ih1, ih2, ih3, ih4, ih5, ih6⟩ := ih (i + 1)
        (bulkInsert db1 (Subscriptions.mkBulkSub db1.nextId ref fields row)) hC2
      rw [hrun]
      refine ⟨by simp [ih1], ?_, ?_, ?_, ?_, ih6⟩
      · have hmaps : (List.range rest.length).map (fun j => i + 1 + j)
            = (List.range rest.length).map ((fun j => i + j) ∘ Nat.succ) := by
          apply List.map_congr_left
          intro a ha
          simp
          omega
        simp only [List.map_cons, ih2, List.length_cons, List.range_succ_eq_map,
          List.map_map, Nat.add_zero]
        rw [hmaps]
      · simp only [List.map_cons, ih3, hv]
        rfl
      · simp only [List.filter_cons]
        simp only [ih4]
        have hlen2 : ((bulkInsert db1 (Subscriptions.mkBulkSub db1.nextId ref fields row))).subscriptions.length
            = db.subscriptions.length + 1 := by
          simp [bulkInsert, hsubs1]
        simp [hlen2]
        omega
      · intro r hr
        rcases List.mem_cons.mp hr with hr | hr
        · subst hr
          refine ⟨fun hfalse => ?_, fun _ => ⟨rfl, ref, rfl⟩⟩
          simp at hfalse
        · exact ih5 r hr

/-- A bulk row that fails validation (negative cost). -/
def wBadRow : Subscriptions.BulkRow := { wBulkRow with cost := -1 }

/-- C9: `bulkCreate` throws on more than 100 rows; otherwise each row is
processed independently — its success is decided by its own validation
alone, a failing row yields an error entry without preventing other
insertions — and the summary has one entry per row with consecutive
indices, `total` equal to the input length, `succeeded + failed = total`,
and exactly `succeeded` new subscriptions inserted. -/
theorem C9_bulk_create :
    (∀ (db : DB) (year : Int) (email : String) (rows : List Subscriptions.BulkRow)
        (admin : User), requireAdmin db email = .ok admin → 100 < rows.length →
      Subscriptions.bulkCreate db year email rows
        = (.error "Maximum 100 subscriptions per bulk import", db)) ∧
    (∀ (db : DB) (year : Int) (email : String) (rows : List Subscriptions.BulkRow)
        (admin : User), requireAdmin db email = .ok admin → rows.length ≤ 100 →
      counterInv year db →
      ∃ summary dbf,
        Subscriptions.bulkCreate db year email rows = (.ok summary, dbf) ∧
        summary.total = rows.length ∧
        summary.results.length = rows.length ∧
        summary.results.map (fun r => r.index) = List.range rows.length ∧
        summary.succeeded + summary.failed = summary.total ∧
        summary.results.map (fun r => r.success)
          = rows.map (fun row =>
              exceptIsOk (Subscriptions.bulkRowValidate db.categories db.currencies row)) ∧
        (∀ r ∈ summary.results, r.success = false →
          r.referenceNumber = none ∧ ∃ e, r.error = some e) ∧
        dbf.subscriptions.length = db.subscriptions.length + summary.succeeded) := by
  constructor
  · intro db year email rows admin hra hlen
    unfold Subscriptions.bulkCreate
    simp only [hra]
    rw [if_pos hlen]
  · intro db year email rows admin hra hlen hC
    have hgt : ¬ 100 < rows.length := by omega
    have hbc : Subscriptions.bulkCreate db year email rows
        = (.ok ⟨rows.length,
            ((Subscriptions.bulkCreateLoop db.categories db.currencies year 0 rows db).1.filter
              (fun r => r.success)).length,
            ((Subscriptions.bulkCreateLoop db.categories db.currencies year 0 rows db).1.filter
              (fun r => !r.success)).length,
            (Subscriptions.bulkCreateLoop db.categories db.currencies year 0 rows db).1⟩,
          (Subscriptions.bulkCreateLoop db.categories db.currencies year 0 rows db).2) := by
      unfold Subscriptions.bulkCreate
      simp only [hra]
      rw [if_neg hgt]
    obtain ⟨h1, h2, h3, h4, h5, -⟩ :=
      bulkCreateLoop_spec db.categories db.currencies year rows 0 db hC
    refine ⟨_, _, hbc, rfl, h1, ?_, ?_, h3, fun r hr hf => (h5 r hr).1 hf, h4⟩
    · rw [h2]
      simp
    · show ((Subscriptions.bulkCreateLoop db.categories db.currencies year 0 rows db).1.filter
          (fun r => r.success)).length
        + ((Subscriptions.bulkCreateLoop db.categories db.currencies year 0 rows db).1.filter
          (fun r => !r.success)).length = rows.length
      rw [length_filter_success]
      exact h1

/-- Witness for C9: a two-row bulk import with one valid and one invalid
row yields one success and one per-row failure. -/
theorem C9_bulk_create_witness :
    ∃ summary dbf,
      Subscriptions.bulkCreate wDB 2026 "admin@example.com" [wBulkRow, wBadRow]
        = (.ok summary, dbf) ∧ summary.total = 2 ∧
      summary.results.map (fun r => r.success) = [true, false] ∧
      summary.succeeded + summary.failed = 2 ∧
      dbf.subscriptions.length = wDB.subscriptions.length + summary.succeeded := by
  obtain ⟨summary, dbf, hbc, htot, hlen, hidx, hsum, hsucc, herr, hsubs⟩ :=
    C9_bulk_create.2 wDB 2026 "admin@example.com" [wBulkRow, wBadRow] wAdmin rfl
      (by decide) (show counterInv 2026 wDB by unfold counterInv; decide)
  refine ⟨summary, dbf, hbc, htot, ?_, ?_, hsubs⟩
  · rw [hsucc]
    rfl
  · rw [htot] at hsum
    exact hsum

/-- A rate-limit bump never touches the audit log. -/
theorem bumpRateLimit_auditLogs (db : DB) (l? : Option RateLimit) (k : String)
    (now ws : Int) : (bumpRateLimit db l? k now ws).auditLogs = db.auditLogs :=
  (bumpRateLimit_preserves db l? k now ws).2.2.2.2.2.2.2.1

/-- A reference-number allocation never touches the audit log. -/
theorem generateReferenceNumber_auditLogs (db : DB) (year : Int) (ty ref : String)
    (db1 : DB) (h : generateReferenceNumber db year ty = .ok (ref, db1)) :
    db1.auditLogs = db.auditLogs :=
  (generateReferenceNumber_preserves db year ty ref db1 h).2.2.2.2.2.2.2.1

/-- The write suffix of `submit` never touches the audit log. -/
theorem submitFinish_auditLogs (db : DB) (now : Int)
    (args : SubscriptionRequests.SubmitArgs) (san : SubscriptionRequests.SubmitSan)
    (gl? el? : Option RateLimit) (ref : String) :
    ((SubscriptionRequests.submitFinish db now args san gl? el? ref).2).auditLogs
      = db.auditLogs := by
  show (bumpRateLimit (bumpRateLimit db gl? "global" now (now - 3600000)) el?
    ("email:" ++ san.requesterEmail) now (now - 3600000)).auditLogs = db.auditLogs
  rw [bumpRateLimit_auditLogs, bumpRateLimit_auditLogs]

/-- The `bulkCreate` row loop never touches the audit log. -/
theorem bulkCreateLoop_auditLogs (cats : List Category) (curs : List Currency)
    (year : Int) (rows : List Subscriptions.BulkRow) : ∀ (i : Nat) (db : DB),
    ((Subscriptions.bulkCreateLoop cats curs year i rows db).2).auditLogs
      = db.auditLogs := by
  induction rows with
  | nil => intro i db; rfl
  | cons row rest ih =>
    intro i db
    cases hv : Subscriptions.bulkRowValidate cats curs row with
    | error e =>
      have hrun : (Subscriptions.bulkCreateLoop cats curs year i (row :: rest) db).2
          = (Subscriptions.bulkCreateLoop cats curs year (i + 1) rest db).2 := by
        simp only [Subscriptions.bulkCreateLoop]
        rw [hv]
      rw [hrun]
      exact ih (i + 1) db
    | ok fields =>
      cases hgen : generateReferenceNumber db year "subscription" with
      | error e =>
        have hrun : (Subscriptions.bulkCreateLoop cats curs year i (row :: rest) db).2
            = (Subscriptions.bulkCreateLoop cats curs year (i + 1) rest db).2 := by
          simp only [Subscriptions.bulkCreateLoop]
          rw [hv, hgen]
        rw [hrun]
        exact ih (i + 1) db
      | ok rd =>
        obtain ⟨ref, db1⟩ := rd
        have hrun : (Subscriptions.bulkCreateLoop cats curs year i (row :: rest) db).2
            = (Subscriptions.bulkCreateLoop cats curs year (i + 1) rest
                (bulkInsert db1 (Subscriptions.mkBulkSub db1.nextId ref fields row))).2 := by
          simp only [Subscriptions.bulkCreateLoop]
          rw [hv, hgen]
          rfl
        rw [hrun, ih (i + 1) (bulkInsert db1 (Subscriptions.mkBulkSub db1.nextId ref fields row))]
        show db1.auditLogs = db.auditLogs
        exact generateReferenceNumber_auditLogs db year "subscription" ref db1 hgen

/-- One call of the modeled mutation surface. -/
inductive Op where
  | submitReq (now year : Int) (args : SubscriptionRequests.SubmitArgs)
  | submitOpt (now year : Int) (args : SubscriptionRequestsOpt.SubmitArgs)
  | approveReq (now : Int) (today : Date) (year : Int)
      (args : SubscriptionRequests.ApproveArgs)
  | rejectReq (now : Int) (args : SubscriptionRequests.RejectArgs)
  | removeReq (email : String) (id : Nat)
  | createSub (year : Int) (args : Subscriptions.CreateArgs)
  | updateSub (args : Subscriptions.UpdateArgs)
  | bulkCreateSub (year : Int) (email : String) (rows : List Subscriptions.BulkRow)
  | removeSub (email : String) (id : Nat)
  | revealCred (now : Int) (encKey : Option String) (email : String) (sid : Nat)
      (action : String)
  | createCred (encKey : Option String) (iv : List Nat) (email : String) (sid : Nat)
      (username password : String) (notes : Option String)
  | updateCred (now : Int) (encKey : Option String) (iv : List Nat) (email : String)
      (id : Nat) (username password : String) (notes : Option String)
  | removeCred (email : String) (id : Nat)

/-- The database produced by one mutation call (the returned value is
dropped). -/
def applyOp (op : Op) (db : DB) : DB :=
  match op with
  | .submitReq now year args => (SubscriptionRequests.submit db now year args).2
  | .submitOpt now year args => (SubscriptionRequestsOpt.submit db now year args).2
  | .approveReq now today year args =>
    (SubscriptionRequests.approve db now today year args).2
  | .rejectReq now args => (SubscriptionRequests.reject db now args).2
  | .removeReq email id => (SubscriptionRequests.remove db email id).2
  | .createSub year args => (Subscriptions.create db year args).2
  | .updateSub args => (Subscriptions.update db args).2
  | .bulkCreateSub year email rows => (Subscriptions.bulkCreate db year email rows).2
  | .removeSub email id => (Subscriptions.remove db email id).2
  | .revealCred now encKey email sid action =>
    (Credentials.reveal db now encKey email sid action).2
  | .createCred encKey iv email sid username password notes =>
    (Credentials.create db encKey iv email sid username password notes).2
  | .updateCred now encKey iv email id username password notes =>
    (Credentials.update db now encKey iv email id username password notes).2
  | .removeCred email id => (Credentials.remove db email id).2

/-- Counterexample to C8 as stated: on a concrete database holding one
audit entry, the subscription `remove` mutation — one of the claim's own
cited sources — succeeds and deletes that existing entry. -/
theorem C8_remove_deletes_audit_entry :
    (Subscriptions.remove wDB4 "admin@example.com" 7).1 = .ok () ∧
    wDB4.auditLogs = [⟨9, 7, "Team chat tool", "viewed", "admin@example.com", 99⟩] ∧
    ((Subscriptions.remove wDB4 "admin@example.com" 7).2).auditLogs = [] :=
  ⟨rfl, rfl, rfl⟩

/-- C8 (corrected): the amended invariant.  Every modeled mutation other
than subscription removal never modifies or deletes an existing audit-log
entry — it appends some (possibly empty) suffix — and subscription removal
either changes nothing (on error) or deletes exactly the entries of the
removed subscription. -/
theorem C8_audit_append_only :
    (∀ (db : DB) (op : Op), (∀ email id, op ≠ Op.removeSub email id) →
      ∃ t, (applyOp op db).auditLogs = db.auditLogs ++ t) ∧
    (∀ (db : DB) (email : String) (id : Nat),
      (applyOp (Op.removeSub email id) db).auditLogs = db.auditLogs ∨
      (applyOp (Op.removeSub email id) db).auditLogs
        = db.auditLogs.filter (fun l => l.subscriptionId ≠ id)) := by
  refine ⟨?_, ?_⟩
  · intro db op hne
    cases op with
    | submitReq now year args =>
      refine ⟨[], ?_⟩
      rw [List.append_nil]
      show ((SubscriptionRequests.submit db now year args).2).auditLogs = db.auditLogs
      unfold SubscriptionRequests.submit
      try dsimp only
      repeat' split
      all_goals try dsimp only
      all_goals repeat' split
      all_goals try rfl
      all_goals rw [submitFinish_auditLogs]
      all_goals exact generateReferenceNumber_auditLogs _ _ _ _ _ (by assumption)
    | submitOpt now year args =>
      refine ⟨[], ?_⟩
      rw [List.append_nil]
      show ((SubscriptionRequestsOpt.submit db now year args).2).auditLogs = db.auditLogs
      unfold SubscriptionRequestsOpt.submit
      try dsimp only
      repeat' split
      all_goals try dsimp only
      all_goals repeat' split
      all_goals try rfl
      all_goals try dsimp only
      all_goals repeat' split
      all_goals simp only [bumpRateLimit_auditLogs]
      all_goals exact generateReferenceNumber_auditLogs _ _ _ _ _ (by assumption)
    | approveReq now today year args =>
      refine ⟨[], ?_⟩
      rw [List.append_nil]
      show ((SubscriptionRequests.approve db now today year args).2).auditLogs
        = db.auditLogs
      unfold SubscriptionRequests.approve
      try dsimp only
      repeat' split
      all_goals try dsimp only
      all_goals repeat' split
      all_goals try rfl
      all_goals exact generateReferenceNumber_auditLogs _ _ _ _ _ (by assumption)
    | rejectReq now args =>
      refine ⟨[], ?_⟩
      rw [List.append_nil]
      show ((SubscriptionRequests.reject db now args).2).auditLogs = db.auditLogs
      unfold SubscriptionRequests.reject
      try dsimp only
      repeat' split
      all_goals try dsimp only
      all_goals repeat' split
      all_goals rfl
    | removeReq email id =>
      refine ⟨[], ?_⟩
      rw [List.append_nil]
      show ((SubscriptionRequests.remove db email id).2).auditLogs = db.auditLogs
      unfold SubscriptionRequests.remove
      repeat' split
      all_goals rfl
    | createSub year args =>
      refine ⟨[], ?_⟩
      rw [List.append_nil]
      show ((Subscriptions.create db year args).2).auditLogs = db.auditLogs
      unfold Subscriptions.create
      try dsimp only
      repeat' split
      all_goals try dsimp only
      all_goals repeat' split
      all_goals try rfl
      all_goals exact generateReferenceNumber_auditLogs _ _ _ _ _ (by assumption)
    | updateSub args =>
      refine ⟨[], ?_⟩
      rw [List.append_nil]
      show ((Subscriptions.update db args).2).auditLogs = db.auditLogs
      unfold Subscriptions.update
      try dsimp only
      repeat' split
      all_goals try dsimp only
      all_goals repeat' split
      all_goals rfl
    | bulkCreateSub year email rows =>
      refine ⟨[], ?_⟩
      rw [List.append_nil]
      show ((Subscriptions.bulkCreate db year email rows).2).auditLogs = db.auditLogs
      unfold Subscriptions.bulkCreate
      try dsimp only
      repeat' split
      all_goals try rfl
      all_goals show ((Subscriptions.bulkCreateLoop db.categories db.currencies year 0 rows db).2).auditLogs
        = db.auditLogs
      all_goals exact bulkCreateLoop_auditLogs db.categories db.currencies year rows 0 db
    | removeSub email id => exact absurd rfl (hne email id)
    | revealCred now encKey email sid action =>
      show ∃ t, ((Credentials.reveal db now encKey email sid action).2).auditLogs
        = db.auditLogs ++ t
      unfold Credentials.reveal
      try dsimp only
      repeat' split
      all_goals try dsimp only
      all_goals repeat' split
      all_goals first
        | exact ⟨[], (List.append_nil _).symm⟩
        | exact ⟨_, rfl⟩
    | createCred encKey iv email sid username password notes =>
      show ∃ t, ((Credentials.create db encKey iv email sid username password notes).2).auditLogs
        = db.auditLogs ++ t
      unfold Credentials.create
      try dsimp only
      repeat' split
      all_goals try dsimp only
      all_goals repeat' split
      all_goals first
        | exact ⟨[], (List.append_nil _).symm⟩
        | exact ⟨_, rfl⟩
    | updateCred now encKey iv email id username password notes =>
      show ∃ t, ((Credentials.update db now encKey iv email id username password notes).2).auditLogs
        = db.auditLogs ++ t
      unfold Credentials.update
      try dsimp only
      repeat' split
      all_goals try dsimp only
      all_goals repeat' split
      all_goals first
        | exact ⟨[], (List.append_nil _).symm⟩
        | exact ⟨_, rfl⟩
    | removeCred email id =>
      show ∃ t, ((Credentials.remove db email id).2).auditLogs = db.auditLogs ++ t
      unfold Credentials.remove
      repeat' split
      all_goals first
        | exact ⟨[], (List.append_nil _).symm⟩
        | exact ⟨_, rfl⟩
  · intro db email id
    show (Subscriptions.remove db email id).2.auditLogs = db.auditLogs ∨
      (Subscriptions.remove db email id).2.auditLogs
        = db.auditLogs.filter (fun l => l.subscriptionId ≠ id)
    unfold Subscriptions.remove
    repeat' split
    all_goals first
      | exact Or.inl rfl
      | exact Or.inr rfl

/-- Witness for C8: a concrete rejection only appends to the audit log. -/
theorem C8_audit_append_only_witness :
    ∃ t, (applyOp (Op.rejectReq 55 ⟨"admin@example.com", 5, "not needed now"⟩) wDB2).auditLogs
      = wDB2.auditLogs ++ t :=
  C8_audit_append_only.1 wDB2
    (Op.rejectReq 55 ⟨"admin@example.com", 5, "not needed now"⟩)
    (fun email id h => Op.noConfusion h)
